import Mathlib

/-!
# triton-kubernetes: `create/node_triton.go`

A shallow embedding of `NewTritonNode` and `getClusterOptions` together with the
parts of the libraries they call (`strings`, `encoding/json` struct tags and the
`gabs` container), followed by the properties proved about them.

Conventions of the embedding

* A Go `string` is a Lean `String`; positions are counted in characters, which
  agrees with Go's byte positions wherever the code only compares a position
  with `0` or `-1`.
* A Go `map[string]interface{}` is an association list.  A map produced by the
  JSON decoder has pairwise distinct keys; theorems that depend on this carry
  it as a hypothesis.  The order of the list has no meaning: `range` over a map
  is modelled by an explicit `RangeOrder`, an arbitrary permutation.
* A `*gabs.Container` is an `Option Json`: `none` is the nil pointer and
  `some v` is `&Container{v}`; Go's untyped `nil` value is `Json.null`.  The
  `gabs` functions follow version 1 of the library, whose `SetP` and `Path`
  split their path at every dot.
* Calls that leave the process (prompts, settings, remote store, shell,
  filesystem) are fields of `Env`; the calls made are recorded in a trace.
-/

set_option autoImplicit false

namespace TritonKubernetes

/-! ## Go strings -/

/-- Loop of `strings.Index`: the first position, counted from `i`, at which
`substr` occurs in the remaining text, or `-1`. -/
def stringsIndexFrom (substr : List Char) : List Char → Nat → Int
  | [], i => if substr.isPrefixOf [] then (i : Int) else -1
  | c :: cs, i =>
    if substr.isPrefixOf (c :: cs) then (i : Int) else stringsIndexFrom substr cs (i + 1)

/-- Go `strings.Index(s, substr)`. -/
def stringsIndex (s substr : String) : Int :=
  stringsIndexFrom substr.data s.data 0

/-- Splitting a character sequence at every occurrence of `sep`. -/
def splitOnChar (sep : Char) : List Char → List (List Char)
  | [] => [[]]
  | c :: cs =>
    if c = sep then [] :: splitOnChar sep cs
    else
      match splitOnChar sep cs with
      | [] => [[c]]
      | seg :: segs => (c :: seg) :: segs

/-- Go `strings.Split(s, sep)` for a separator of one character. -/
def stringsSplit (s : String) (sep : Char) : List String :=
  (splitOnChar sep s.data).map String.mk

/-- The text `s` starts with `p`. -/
def HasPrefix (s p : String) : Prop := p.data <+: s.data

instance (s p : String) : Decidable (HasPrefix s p) := by
  unfold HasPrefix; infer_instance

/-! ## Errors -/

/-- A Go `error` value, identified by its message. -/
structure GoError where
  msg : String
  deriving DecidableEq, Repr

/-- Go `errors.New`. -/
def errorsNew (text : String) : GoError := ⟨text⟩

/-! ## JSON values and `gabs` -/

/-- The value tree `encoding/json` decodes into an `interface{}`. A number keeps
its literal: no operation of this file inspects it. -/
inductive Json where
  | null
  | bool (b : Bool)
  | number (lit : String)
  | string (s : String)
  | array (xs : List Json)
  | object (kvs : List (String × Json))
  deriving Repr

/-- Go `mmap[k]` with the comma-ok form: the value stored at key `k`. -/
def mapGet : List (String × Json) → String → Option Json
  | [], _ => none
  | (k', v) :: rest, k => if k' = k then some v else mapGet rest k

/-- Go `mmap[k] = v`: overwrite the entry at `k`, or add one. -/
def mapSet : List (String × Json) → String → Json → List (String × Json)
  | [], k, v => [(k, v)]
  | (k', v') :: rest, k, v =>
    if k' = k then (k, v) :: rest else (k', v') :: mapSet rest k v

/-- A `*gabs.Container`: `none` is the nil pointer. -/
abbrev Container := Option Json

/-- Library `gabs.ErrNotObj`. -/
def ErrNotObj : GoError := ⟨"not an object"⟩

/-- Library `gabs.ErrPathCollision`. -/
def ErrPathCollision : GoError := ⟨"encountered value collision whilst building path"⟩

/-- Library `(*Container).Data`: the contained value, `nil` for a nil container. -/
def Container.Data : Container → Json
  | none => .null
  | some object => object

mutual
/-- Library `(*Container).Search` on the contained value: walk the hierarchy
through objects; at an array, search every element for the rest of the
hierarchy and collect the non-nil results. -/
def searchValue : Json → List String → Container
  | object, [] => some object
  | .object mmap, target :: rest => searchField mmap target rest
  | .array marray, target :: rest =>
    match searchElements marray (target :: rest) with
    | [] => none
    | tmpArray => some (.array tmpArray)
  | _, _ :: _ => none
/-- The object case of `Search`: `mmap[target]`, then the rest of the hierarchy. -/
def searchField : List (String × Json) → String → List String → Container
  | [], _, _ => none
  | (k, v) :: more, target, rest =>
    if k = target then searchValue v rest else searchField more target rest
/-- The array case of `Search`: the non-nil results over the elements. -/
def searchElements : List Json → List String → List Json
  | [], _ => []
  | val :: vals, hierarchy =>
    match Container.Data (searchValue val hierarchy) with
    | .null => searchElements vals hierarchy
    | res => res :: searchElements vals hierarchy
end

/-- Library `(*Container).Search`. -/
def Container.Search (g : Container) (hierarchy : List String) : Container :=
  searchValue (Container.Data g) hierarchy

/-- Library `(*Container).S`, shorthand for `Search`. -/
def Container.S (g : Container) (hierarchy : List String) : Container :=
  Container.Search g hierarchy

/-- Library `(*Container).Path`: `Search` along a dot-separated path. -/
def Container.Path (g : Container) (path : String) : Container :=
  Container.Search g (stringsSplit path '.')

/-- Library `(*Container).ChildrenMap`: the children of an object, or
`ErrNotObj`. -/
def Container.ChildrenMap (g : Container) : Except GoError (List (String × Container)) :=
  match Container.Data g with
  | .object mmap => .ok (mmap.map fun kv => (kv.1, some kv.2))
  | _ => .error ErrNotObj

/-- Loop of library `(*Container).Set`: descend along `path`, creating the
objects that are missing (or nil), and store `value` at the last name. The
flag is `false` when a non-object is met on the way (a path collision); the
objects created before the collision stay. -/
def setLoop (value : Json) : List String → Json → Json × Bool
  | [], object => (object, true)
  | [target], .object mmap => (.object (mapSet mmap target value), true)
  | target :: next :: rest, .object mmap =>
    let child : Json :=
      match mapGet mmap target with
      | none => .object []
      | some .null => .object []
      | some c => c
    let r := setLoop value (next :: rest) child
    (.object (mapSet mmap target r.1), r.2)
  | _ :: _, object => (object, false)

/-- Library `(*Container).Set` on a non-nil container holding `object`: the
value held afterwards and the error returned. -/
def Container.Set (object : Json) (value : Json) (path : List String) : Json × Option GoError :=
  match path with
  | [] => (value, none)
  | _ :: _ =>
    let start : Json :=
      match object with
      | .null => .object []
      | o => o
    let r := setLoop value path start
    (r.1, if r.2 then none else some ErrPathCollision)

/-- Library `(*Container).SetP`: `Set` along a dot-separated path. -/
def Container.SetP (object : Json) (value : Json) (path : String) : Json × Option GoError :=
  Container.Set object value (stringsSplit path '.')

/-- Library `(*Container).StringIndent`, given `json.MarshalIndent`: the
indented text, or the empty object's text for a nil value or a failed marshal. -/
def Container.StringIndent (marshalIndent : Json → String → String → Except GoError String)
    (object : Json) (pfx indent : String) : String :=
  match object with
  | .null => "\x7b\x7d"
  | o =>
    match marshalIndent o pfx indent with
    | .ok bytes => bytes
    | .error _ => "\x7b\x7d"

/-- Go `range` over a map: every entry once, in an unspecified order. -/
structure RangeOrder where
  visit : List (String × Container) → List (String × Container)
  perm : ∀ m, (visit m).Perm m

/-! ## The configuration records (lines 21-55) -/

structure rancherHostLabelsConfig where
  Orchestration : Bool := false
  Etcd : Bool := false
  Compute : Bool := false
  deriving DecidableEq, Repr

structure tritonNodeTerraformConfig where
  Source : String := ""
  Hostname : String := ""
  RancherAPIURL : String := ""
  RancherAccessKey : String := ""
  RancherSecretKey : String := ""
  RancherEnvironmentID : String := ""
  RancherHostLabels : rancherHostLabelsConfig := {}
  TritonAccount : String := ""
  TritonKeyPath : String := ""
  TritonKeyID : String := ""
  TritonURL : String := ""
  RancherRegistry : String := ""
  RancherRegistryUsername : String := ""
  RancherRegistryPassword : String := ""
  KubernetesRegistry : String := ""
  KubernetesRegistryUsername : String := ""
  KubernetesRegistryPassword : String := ""
  deriving DecidableEq, Repr

structure clusterOption where
  ClusterName : String
  ClusterKey : String
  deriving DecidableEq, Repr

/-- A string field whose tag is `json:"name"`: always written. -/
def jsonField (name value : String) : List (String × Json) :=
  [(name, .string value)]

/-- A string field whose tag is `json:"name,omitempty"`: left out when empty. -/
def jsonFieldOmitEmpty (name value : String) : List (String × Json) :=
  if value = "" then [] else [(name, .string value)]

/-- What `encoding/json` writes for a `rancherHostLabelsConfig` (lines 46-50). -/
def rancherHostLabelsConfig.toJson (l : rancherHostLabelsConfig) : Json :=
  .object [("orchestration", .bool l.Orchestration), ("etcd", .bool l.Etcd),
    ("compute", .bool l.Compute)]

/-- The fields `encoding/json` writes for a `tritonNodeTerraformConfig`, following
the struct tags of lines 21-44. -/
def tritonNodeTerraformConfig.fields (c : tritonNodeTerraformConfig) : List (String × Json) :=
  jsonField "source" c.Source ++
  jsonField "hostname" c.Hostname ++
  jsonField "rancher_api_url" c.RancherAPIURL ++
  jsonField "rancher_access_key" c.RancherAccessKey ++
  jsonField "rancher_secret_key" c.RancherSecretKey ++
  jsonField "rancher_environment_id" c.RancherEnvironmentID ++
  [("rancher_host_labels", c.RancherHostLabels.toJson)] ++
  jsonField "triton_account" c.TritonAccount ++
  jsonField "triton_key_path" c.TritonKeyPath ++
  jsonField "triton_key_id" c.TritonKeyID ++
  jsonFieldOmitEmpty "triton_url" c.TritonURL ++
  jsonFieldOmitEmpty "rancher_registry" c.RancherRegistry ++
  jsonFieldOmitEmpty "rancher_registry_username" c.RancherRegistryUsername ++
  jsonFieldOmitEmpty "rancher_registry_password" c.RancherRegistryPassword ++
  jsonFieldOmitEmpty "k8s_registry" c.KubernetesRegistry ++
  jsonFieldOmitEmpty "k8s_registry_username" c.KubernetesRegistryUsername ++
  jsonFieldOmitEmpty "k8s_registry_password" c.KubernetesRegistryPassword

/-- The serialized module object of a node configuration. -/
def tritonNodeTerraformConfig.toJson (c : tritonNodeTerraformConfig) : Json :=
  .object c.fields

/-! ## `getClusterOptions` (lines 380-402) -/

/-- Body of the `for key, child := range children` loop. -/
def getClusterOptions.visit (result : List clusterOption) (entry : String × Container) :
    List clusterOption :=
  if stringsIndex entry.1 "cluster_" = 0 then
    match Container.Data (Container.Path entry.2 "name") with
    | .string name => result ++ [{ ClusterKey := entry.1, ClusterName := name }]
    | _ => result
  else result

/-- Source `getClusterOptions`: the cluster options of the given tf config. -/
def getClusterOptions (order : RangeOrder) (parsedConfig : Container) :
    Except GoError (List clusterOption) :=
  match Container.ChildrenMap (Container.S parsedConfig ["module"]) with
  | .error err => .error err
  | .ok children => .ok ((order.visit children).foldl getClusterOptions.visit [])

/-! ## The collaborators of `NewTritonNode` -/

/-- Result of `Dir().List`: the names of the entries and the reported size. -/
structure ListDirectoryOutput where
  Entries : List String := []
  ResultSetSize : Nat := 0
  deriving DecidableEq, Repr

/-- Everything `NewTritonNode` asks of the outside: settings (`viper`), prompts,
the key helpers, the Manta client, the filesystem, the shell and the JSON
codec.  A setting that is not set is `none`; a call that fails returns its
error. -/
structure Env where
  /-- Settings: `viper.IsSet k` is `(viper k).isSome`, `viper.GetString k` its value. -/
  viper : String → Option String
  /-- Running a `promptui.Prompt` with the given label. -/
  promptRun : String → Except GoError String
  /-- Running a `promptui.Select` with the given label over the given items: the index chosen. -/
  selectRun : String → List String → Except GoError Nat
  GetPublicKeyFingerprintFromPrivateKey : String → Except GoError String
  ReadFile : String → Except GoError String
  NewPrivateKeySigner : String → String → String → Option GoError
  /-- Creating the storage client from Triton URL, Manta URL and account name. -/
  NewClient : String → String → String → Option GoError
  /-- Listing a directory of the store with a limit. -/
  ListDirectory : String → Nat → Except GoError ListDirectoryOutput
  /-- Creating a temporary directory: `ioutil.TempDir dir pattern`. -/
  TempDir : String → String → Except GoError String
  /-- Fetching an object: the reader returned, itself the result of `ioutil.ReadAll` on it. -/
  Get : String → Except GoError (Except GoError String)
  /-- Decoding with `gabs.ParseJSON`. -/
  ParseJSON : String → Except GoError Json
  /-- The order in which `range` visits the module map. -/
  order : RangeOrder
  /-- Encoding with `json.MarshalIndent value prefix indent`. -/
  MarshalIndent : Json → String → String → Except GoError String
  /-- Writing a file: `ioutil.WriteFile filename data perm`. -/
  WriteFile : String → String → Nat → Option GoError
  /-- Running `shell.RunShellCommand` in a working directory (`none` for nil options). -/
  RunShellCommand : Option String → String → List String → Option GoError
  /-- Storing an object: path, content type, body. -/
  Put : String → String → String → Option GoError

/-- A call with an effect outside the function, in the order made. -/
inductive Event where
  | list (directoryName : String) (limit : Nat)
  | println (line : String)
  | tempDir (created : String)
  | get (objectPath : String)
  | writeFile (filename data : String) (perm : Nat)
  | runShellCommand (workingDir : Option String) (command : String) (args : List String)
  | put (objectPath contentType body : String)
  | removeAll (path : String)
  deriving DecidableEq, Repr

/-- The call is a `Put` to the store. -/
def Event.isPut : Event → Bool
  | .put _ _ _ => true
  | _ => false

/-- How a call of `NewTritonNode` ends: it returns an error or nil, or an index
expression panics. -/
inductive Outcome where
  | returned (err : Option GoError)
  | panicked
  deriving DecidableEq, Repr

/-- The local variables of `NewTritonNode` and the calls made so far. A variable
holds its zero value until it is assigned. -/
structure State where
  trace : List Event := []
  hostLabel : String := ""
  clusterManager : String := ""
  clusterKey : String := ""
  cfg : tritonNodeTerraformConfig := {}
  result : ListDirectoryOutput := {}
  tempDir : String := ""
  tfJSONMantaPath : String := ""
  parsedConfig : Container := none
  clusterOptions : Option (List clusterOption) := none
  jsonBytes : Option String := none

/-- Control after a block of the function: go on to the next block, or leave. -/
inductive Flow where
  | next (s : State)
  | exit (o : Outcome) (s : State)

/-- Sequencing of blocks: the next block runs only if this one did not leave. -/
def Flow.andThen (f : Flow) (k : State → Flow) : Flow :=
  match f with
  | .next s => k s
  | .exit o s => .exit o s

/-- The state a flow carries. -/
def Flow.state : Flow → State
  | .next s => s
  | .exit _ s => s

/-- Record a call. -/
def State.emit (s : State) (e : Event) : State :=
  { s with trace := s.trace ++ [e] }

/-- Go `return err`. -/
def State.fail (s : State) (err : GoError) : Flow :=
  .exit (.returned (some err)) s

/-- A deferred call: it runs when the function leaves, however it leaves. -/
def Flow.defer (e : Event) : Flow → Flow
  | .next s => .next (s.emit e)
  | .exit o s => .exit o (s.emit e)

/-- A finished call of `NewTritonNode`. -/
structure Run where
  outcome : Outcome
  final : State

/-- Falling off the last block is `return nil`. -/
def Flow.finish : Flow → Run
  | .next s => ⟨.returned none, s⟩
  | .exit o s => ⟨o, s⟩

/-! ## `NewTritonNode` (lines 57-378), block by block -/

namespace NewTritonNode

/-- Lines 62-65: the zero configuration with its source set. -/
def start : State :=
  { cfg := { Source := "./terraform/modules/triton-rancher-k8s-host" } }

/-- Lines 67-84: the hostname, from the settings or a prompt; empty is refused. -/
def hostname (env : Env) (s : State) : Flow :=
  let checked (s : State) : Flow :=
    if s.cfg.Hostname = "" then s.fail (errorsNew "Invalid Hostname") else .next s
  match env.viper "hostname" with
  | some v => checked { s with cfg := { s.cfg with Hostname := v } }
  | none =>
    match env.promptRun "Hostname" with
    | .error err => s.fail err
    | .ok result => checked { s with cfg := { s.cfg with Hostname := result } }

/-- Line 87: the labels offered. -/
def hostLabelOptions : List String := ["compute", "etcd", "orchestration"]

/-- Lines 92-112: the role selector, from the settings or a selection prompt. -/
def selectHostLabel (env : Env) (s : State) : Flow :=
  match env.viper "rancher_host_label" with
  | some v => .next { s with hostLabel := v }
  | none =>
    match env.selectRun "Which type of node?" hostLabelOptions with
    | .error err => s.fail err
    | .ok i =>
      match hostLabelOptions[i]? with
      | none => .exit .panicked s
      | some label => .next { s with hostLabel := label }

/-- Lines 114-122: the role step, setting the host-label flag the selector names. -/
def setHostLabel (s : State) : Flow :=
  if s.hostLabel = "compute" then
    .next { s with cfg := { s.cfg with
      RancherHostLabels := { s.cfg.RancherHostLabels with Compute := true } } }
  else if s.hostLabel = "etcd" then
    .next { s with cfg := { s.cfg with
      RancherHostLabels := { s.cfg.RancherHostLabels with Etcd := true } } }
  else if s.hostLabel = "orchestration" then
    .next { s with cfg := { s.cfg with
      RancherHostLabels := { s.cfg.RancherHostLabels with Orchestration := true } } }
  else s.fail (errorsNew "Invalid rancher host label")

/-- Lines 124-125: the Rancher API URL. -/
def rancherAPIURL (s : State) : Flow :=
  .next { s with cfg := { s.cfg with
    RancherAPIURL := "http://$\x7belement(module.cluster-manager.masters, 0)\x7d:8080" } }

/-- Lines 127-146: the Triton account. -/
def tritonAccount (env : Env) (s : State) : Flow :=
  match env.viper "triton_account" with
  | some v => .next { s with cfg := { s.cfg with TritonAccount := v } }
  | none =>
    match env.promptRun "Triton Account Name (usually your email)" with
    | .error err => s.fail err
    | .ok result => .next { s with cfg := { s.cfg with TritonAccount := result } }

/-- Lines 148-171: the Triton key path. -/
def tritonKeyPath (env : Env) (s : State) : Flow :=
  match env.viper "triton_key_path" with
  | some v => .next { s with cfg := { s.cfg with TritonKeyPath := v } }
  | none =>
    match env.promptRun "Triton Key Path" with
    | .error err => s.fail err
    | .ok result => .next { s with cfg := { s.cfg with TritonKeyPath := result } }

/-- Lines 173-182: the Triton key id, from the settings or the key's fingerprint. -/
def tritonKeyID (env : Env) (s : State) : Flow :=
  match env.viper "triton_key_id" with
  | some v => .next { s with cfg := { s.cfg with TritonKeyID := v } }
  | none =>
    match env.GetPublicKeyFingerprintFromPrivateKey s.cfg.TritonKeyPath with
    | .error err => s.fail err
    | .ok keyID => .next { s with cfg := { s.cfg with TritonKeyID := keyID } }

/-- Lines 184-198: the Triton URL. -/
def tritonURL (env : Env) (s : State) : Flow :=
  match env.viper "triton_url" with
  | some v => .next { s with cfg := { s.cfg with TritonURL := v } }
  | none =>
    match env.promptRun "Triton URL" with
    | .error err => s.fail err
    | .ok result => .next { s with cfg := { s.cfg with TritonURL := result } }

/-- Lines 200-221: key material, signer and storage client. -/
def storageClient (env : Env) (s : State) : Flow :=
  match env.ReadFile s.cfg.TritonKeyPath with
  | .error err => s.fail err
  | .ok keyMaterial =>
    match env.NewPrivateKeySigner s.cfg.TritonKeyID keyMaterial s.cfg.TritonAccount with
    | some err => s.fail err
    | none =>
      match env.NewClient s.cfg.TritonURL "https://us-east.manta.joyent.com"
          s.cfg.TritonAccount with
      | some err => s.fail err
      | none => .next s

/-- Lines 223-237: list the cluster managers; stop, with nil, if there are none. -/
def listClusterManagers (env : Env) (s : State) : Flow :=
  let directoryName := "/stor/" ++ "triton-kubernetes"
  let s := s.emit (.list directoryName 100)
  match env.ListDirectory directoryName 100 with
  | .error err => s.fail err
  | .ok result =>
    if result.ResultSetSize = 0 then
      .exit (.returned none) (s.emit (.println "No cluster managers found."))
    else .next { s with result := result }

/-- Lines 239-259: the cluster manager, from the settings or a selection prompt. -/
def selectClusterManager (env : Env) (s : State) : Flow :=
  match env.viper "cluster_manager" with
  | some v => .next { s with clusterManager := v }
  | none =>
    match env.selectRun "Cluster Manager" s.result.Entries with
    | .error err => s.fail err
    | .ok i =>
      match s.result.Entries[i]? with
      | none => .exit .panicked s
      | some name => .next { s with clusterManager := name }

/-- Line 269: the path of the tf config of a cluster manager in Manta. -/
def mantaPath (clusterManager : String) : String :=
  "/stor/" ++ "triton-kubernetes" ++ "/" ++ clusterManager ++ "/" ++ "main.tf.json"

/-- Lines 268-286: fetch, read and parse the current tf config. -/
def load (env : Env) (s : State) : Flow :=
  let tfJSONMantaPath := mantaPath s.clusterManager
  let s := { s.emit (.get tfJSONMantaPath) with tfJSONMantaPath := tfJSONMantaPath }
  match env.Get tfJSONMantaPath with
  | .error err => s.fail err
  | .ok objectReader =>
    match objectReader with
    | .error err => s.fail err
    | .ok currentConfigBytes =>
      match env.ParseJSON currentConfigBytes with
      | .error err => s.fail err
      | .ok parsed => .next { s with parsedConfig := some parsed }

/-- Lines 288-292: the existing clusters. -/
def existingClusters (env : Env) (s : State) : Flow :=
  match getClusterOptions env.order s.parsedConfig with
  | .error err => s.fail err
  | .ok clusterOptions => .next { s with clusterOptions := some clusterOptions }

/-- Lines 297-302: the key of the first option with the given name; the key is
left as it was when no option has it. -/
def findClusterKey (clusterName : String) : List clusterOption → String → String
  | [], clusterKey => clusterKey
  | option :: rest, clusterKey =>
    if clusterName = option.ClusterName then option.ClusterKey
    else findClusterKey clusterName rest clusterKey

/-- Lines 294-324: the cluster, by the pre-supplied name or a selection prompt;
an empty key is refused. -/
def clusterName (env : Env) (s : State) : Flow :=
  let checked (s : State) : Flow :=
    if s.clusterKey = "" then s.fail (errorsNew "Invalid Cluster Name") else .next s
  let clusterOptions := s.clusterOptions.getD []
  match env.viper "cluster_name" with
  | some clusterName =>
    checked { s with clusterKey := findClusterKey clusterName clusterOptions s.clusterKey }
  | none =>
    match env.selectRun "Cluster" (clusterOptions.map (·.ClusterName)) with
    | .error err => s.fail err
    | .ok i =>
      match clusterOptions[i]? with
      | none => .exit .panicked s
      | some option => checked { s with clusterKey := option.ClusterKey }

/-- Lines 326-333: the compose step. The environment id refers to the selected
cluster, the node configuration is set at `module.node_<hostname>` (the value
returned by `SetP`, error included, is dropped) and the document is serialized. -/
def compose (env : Env) (s : State) : State :=
  let cfg := { s.cfg with
    RancherEnvironmentID := "$\x7bmodule." ++ s.clusterKey ++ ".environment_id\x7d" }
  let nodeKey := "node_" ++ cfg.Hostname
  let parsedConfig : Json :=
    (Container.SetP (Container.Data s.parsedConfig) cfg.toJson ("module." ++ nodeKey)).1
  { s with
    cfg := cfg
    parsedConfig := some parsedConfig
    jsonBytes := some (Container.StringIndent env.MarshalIndent parsedConfig "" "\t") }

/-- Lines 335-347: write `main.tf.json` and copy `./terraform` into the
temporary directory. -/
def stage (env : Env) (s : State) : Flow :=
  let jsonBytes := s.jsonBytes.getD ""
  let jsonPath := s.tempDir ++ "/" ++ "main.tf.json"
  let s := s.emit (.writeFile jsonPath jsonBytes 0o644)
  match env.WriteFile jsonPath jsonBytes 0o644 with
  | some err => s.fail err
  | none =>
    let s := s.emit (.runShellCommand none "cp" ["-r", "./terraform", s.tempDir])
    match env.RunShellCommand none "cp" ["-r", "./terraform", s.tempDir] with
    | some err => s.fail err
    | none => .next s

/-- Lines 349-364: `terraform init`, then `terraform apply`, in the temporary
directory. -/
def apply (env : Env) (s : State) : Flow :=
  let s := s.emit (.runShellCommand (some s.tempDir) "terraform" ["init", "-force-copy"])
  match env.RunShellCommand (some s.tempDir) "terraform" ["init", "-force-copy"] with
  | some err => s.fail err
  | none =>
    let s := s.emit (.runShellCommand (some s.tempDir) "terraform" ["apply", "-auto-approve"])
    match env.RunShellCommand (some s.tempDir) "terraform" ["apply", "-auto-approve"] with
    | some err => s.fail err
    | none => .next s

/-- Lines 366-377: after terraform succeeds, save `main.tf.json` to Manta. -/
def commit (env : Env) (s : State) : Flow :=
  let jsonBytes := s.jsonBytes.getD ""
  let s := s.emit (.put s.tfJSONMantaPath "application/json" jsonBytes)
  match env.Put s.tfJSONMantaPath "application/json" jsonBytes with
  | some err => s.fail err
  | none => .next s

/-- Lines 268-333: load the document, resolve the cluster and compose. -/
def prepare (env : Env) (s : State) : Flow :=
  (((load env s).andThen (existingClusters env)).andThen (clusterName env)).andThen
    (fun s => .next (compose env s))

/-- Lines 335-377: stage, apply and commit. -/
def execute (env : Env) (s : State) : Flow :=
  ((stage env s).andThen (apply env)).andThen (commit env)

/-- Lines 268-377: everything that runs while the temporary directory exists. -/
def provision (env : Env) (s : State) : Flow :=
  (prepare env s).andThen (execute env)

/-- Lines 261-377: create the temporary directory, defer its removal, and
provision inside it. -/
def staged (env : Env) (s : State) : Flow :=
  match env.TempDir "" "triton-kubernetes-" with
  | .error err => s.fail err
  | .ok tempDir =>
    Flow.defer (.removeAll tempDir)
      (provision env { s.emit (.tempDir tempDir) with tempDir := tempDir })

/-- Lines 62-259: collect the parameters and pick the cluster manager. -/
def collect (env : Env) : Flow :=
  (((((((((hostname env start).andThen (selectHostLabel env)).andThen setHostLabel).andThen
    rancherAPIURL).andThen (tritonAccount env)).andThen (tritonKeyPath env)).andThen
    (tritonKeyID env)).andThen (tritonURL env)).andThen (storageClient env)).andThen
    (listClusterManagers env) |>.andThen (selectClusterManager env)

end NewTritonNode

/-- Source `NewTritonNode`. -/
def NewTritonNode (env : Env) : Run :=
  ((NewTritonNode.collect env).andThen (NewTritonNode.staged env)).finish

/-! ## Predicates and scenarios used in the statements -/

open NewTritonNode

/-- The option an entry of the module map contributes, if any. -/
def clusterOptionOf (entry : String × Container) : Option clusterOption :=
  if HasPrefix entry.1 "cluster_" then
    match Container.Data (Container.Path entry.2 "name") with
    | .string name => some { ClusterKey := entry.1, ClusterName := name }
    | _ => none
  else none

/-- A flow meets `N` if it goes on and `X` if it leaves. -/
def Flow.Sat (N : State → Prop) (X : Outcome → State → Prop) : Flow → Prop
  | .next s => N s
  | .exit o s => X o s

/-- Exactly one host-label flag is set. -/
def OneRole (l : rancherHostLabelsConfig) : Prop :=
  l = { Compute := true } ∨ l = { Etcd := true } ∨ l = { Orchestration := true }

instance (l : rancherHostLabelsConfig) : Decidable (OneRole l) := by
  unfold OneRole; infer_instance

/-- The variables no collecting block assigns, and the fields of the
configuration that no block of `NewTritonNode` assigns at all. -/
def Untouched (s : State) : Prop :=
  s.clusterKey = "" ∧ s.tempDir = "" ∧ s.tfJSONMantaPath = "" ∧ s.parsedConfig = none ∧
  s.clusterOptions = none ∧ s.jsonBytes = none ∧
  s.cfg.Source = "./terraform/modules/triton-rancher-k8s-host" ∧
  s.cfg.RancherAccessKey = "" ∧ s.cfg.RancherSecretKey = "" ∧
  s.cfg.RancherRegistry = "" ∧ s.cfg.RancherRegistryUsername = "" ∧
  s.cfg.RancherRegistryPassword = "" ∧ s.cfg.KubernetesRegistry = "" ∧
  s.cfg.KubernetesRegistryUsername = "" ∧ s.cfg.KubernetesRegistryPassword = ""

/-- The state after the role step and the API URL (lines 67-125). -/
def Labelled (s : State) : Prop :=
  Untouched s ∧ s.cfg.Hostname ≠ "" ∧ OneRole s.cfg.RancherHostLabels ∧
  s.cfg.RancherAPIURL = "http://$\x7belement(module.cluster-manager.masters, 0)\x7d:8080"

/-- The state handed over by the collecting blocks (lines 62-259). -/
def Collected (env : Env) (s : State) : Prop :=
  Labelled s ∧ s.trace = [.list "/stor/triton-kubernetes" 100] ∧
  env.ListDirectory "/stor/triton-kubernetes" 100 = .ok s.result ∧
  s.result.ResultSetSize ≠ 0

/-- What holds when a collecting block leaves: nothing is staged, and the only
calls made are the listing and, for an empty listing, the message. -/
def CollectExit (env : Env) (o : Outcome) (s : State) : Prop :=
  Untouched s ∧
  (s.trace = [] ∨
    (s.trace = [.list "/stor/triton-kubernetes" 100] ∧
      ∀ r, env.ListDirectory "/stor/triton-kubernetes" 100 = .ok r → r.ResultSetSize ≠ 0) ∨
    (s.trace = [.list "/stor/triton-kubernetes" 100, .println "No cluster managers found."] ∧
      o = .returned none ∧
      ∃ r, env.ListDirectory "/stor/triton-kubernetes" 100 = .ok r ∧ r.ResultSetSize = 0))

namespace NewTritonNode

/-- The state once the fetch has been issued. -/
def afterGet (s : State) : State :=
  { s.emit (.get (mantaPath s.clusterManager)) with
    tfJSONMantaPath := mantaPath s.clusterManager }

/-- The state once the document is parsed. -/
def afterLoad (s : State) (parsed : Json) : State :=
  { afterGet s with parsedConfig := some parsed }

/-- The state once the clusters are listed. -/
def afterListing (s : State) (parsed : Json) (opts : List clusterOption) : State :=
  { afterLoad s parsed with clusterOptions := some opts }

/-- The state once a cluster is selected. -/
def afterSelect (s : State) (parsed : Json) (opts : List clusterOption) (key : String) : State :=
  { afterListing s parsed opts with clusterKey := key }

/-- The document `parsed` is what the store holds for the cluster manager of `s`. -/
def Fetched (env : Env) (s : State) (parsed : Json) : Prop :=
  ∃ bytes, env.Get (mantaPath s.clusterManager) = .ok (.ok bytes) ∧
    env.ParseJSON bytes = .ok parsed

/-- How cluster resolution (lines 294-324) fails. -/
def ResolveFailed (env : Env) (opts : List clusterOption) (o : Outcome) : Prop :=
  (∃ n, env.viper "cluster_name" = some n ∧ (∀ x ∈ opts, x.ClusterName ≠ n) ∧
    o = .returned (some (errorsNew "Invalid Cluster Name"))) ∨
  (env.viper "cluster_name" = none ∧ (o = .panicked ∨ ∃ e, o = .returned (some e)))

/-- The state handed over by `prepare`. -/
def Prepared (env : Env) (s s' : State) : Prop :=
  ∃ parsed opts key, Fetched env s parsed ∧
    getClusterOptions env.order (some parsed) = .ok opts ∧ key ≠ "" ∧
    (∃ o ∈ opts, o.ClusterKey = key ∧
      ∀ n, env.viper "cluster_name" = some n → o.ClusterName = n) ∧
    s' = compose env (afterSelect s parsed opts key)

/-- How `prepare` leaves: at the load, at the listing or at the resolution. -/
def PrepareExit (env : Env) (s : State) (o : Outcome) (s' : State) : Prop :=
  (s' = afterGet s ∧ ∃ e, o = .returned (some e)) ∨
  (∃ parsed, Fetched env s parsed ∧ s' = afterLoad s parsed ∧
    ∃ e, getClusterOptions env.order (some parsed) = .error e ∧ o = .returned (some e)) ∨
  (∃ parsed opts, Fetched env s parsed ∧
    getClusterOptions env.order (some parsed) = .ok opts ∧
    s' = afterListing s parsed opts ∧ ResolveFailed env opts o)

/-- The call of line 337. -/
def writeEvent (s : State) : Event :=
  .writeFile (s.tempDir ++ "/" ++ "main.tf.json") (s.jsonBytes.getD "") 0o644

/-- The call of line 344. -/
def copyEvent (s : State) : Event :=
  .runShellCommand none "cp" ["-r", "./terraform", s.tempDir]

/-- The call of line 355. -/
def initEvent (s : State) : Event :=
  .runShellCommand (some s.tempDir) "terraform" ["init", "-force-copy"]

/-- The call of line 361. -/
def applyEvent (s : State) : Event :=
  .runShellCommand (some s.tempDir) "terraform" ["apply", "-auto-approve"]

/-- The call of line 372. -/
def putEvent (s : State) : Event :=
  .put s.tfJSONMantaPath "application/json" (s.jsonBytes.getD "")

/-- What the environment answers to the call of line 337. -/
def writeResult (env : Env) (s : State) : Option GoError :=
  env.WriteFile (s.tempDir ++ "/" ++ "main.tf.json") (s.jsonBytes.getD "") 0o644

/-- What the environment answers to the call of line 344. -/
def copyResult (env : Env) (s : State) : Option GoError :=
  env.RunShellCommand none "cp" ["-r", "./terraform", s.tempDir]

/-- What the environment answers to the call of line 355. -/
def initResult (env : Env) (s : State) : Option GoError :=
  env.RunShellCommand (some s.tempDir) "terraform" ["init", "-force-copy"]

/-- What the environment answers to the call of line 361. -/
def applyResult (env : Env) (s : State) : Option GoError :=
  env.RunShellCommand (some s.tempDir) "terraform" ["apply", "-auto-approve"]

/-- What the environment answers to the call of line 372. -/
def putResult (env : Env) (s : State) : Option GoError :=
  env.Put s.tfJSONMantaPath "application/json" (s.jsonBytes.getD "")

/-- The ways `execute` can end from state `s`: the outcome and the calls made. -/
inductive Executed (env : Env) (s : State) : Outcome → List Event → Prop where
  | writeFailed (e : GoError) (hw : writeResult env s = some e) :
    Executed env s (.returned (some e)) [writeEvent s]
  | copyFailed (e : GoError) (hw : writeResult env s = none) (hc : copyResult env s = some e) :
    Executed env s (.returned (some e)) [writeEvent s, copyEvent s]
  | initFailed (e : GoError) (hw : writeResult env s = none) (hc : copyResult env s = none)
    (hi : initResult env s = some e) :
    Executed env s (.returned (some e)) [writeEvent s, copyEvent s, initEvent s]
  | applyFailed (e : GoError) (hw : writeResult env s = none) (hc : copyResult env s = none)
    (hi : initResult env s = none) (ha : applyResult env s = some e) :
    Executed env s (.returned (some e)) [writeEvent s, copyEvent s, initEvent s, applyEvent s]
  | putFailed (e : GoError) (hw : writeResult env s = none) (hc : copyResult env s = none)
    (hi : initResult env s = none) (ha : applyResult env s = none)
    (hp : putResult env s = some e) :
    Executed env s (.returned (some e))
      [writeEvent s, copyEvent s, initEvent s, applyEvent s, putEvent s]
  | done (hw : writeResult env s = none) (hc : copyResult env s = none)
    (hi : initResult env s = none) (ha : applyResult env s = none)
    (hp : putResult env s = none) :
    Executed env s (.returned none)
      [writeEvent s, copyEvent s, initEvent s, applyEvent s, putEvent s]

/-- The state in which the provisioning blocks start, the directory `d` created. -/
def entered (s : State) (d : String) : State :=
  { s.emit (.tempDir d) with tempDir := d }

end NewTritonNode

/-- The shapes a call of `NewTritonNode` can have: it leaves while collecting,
fails to create the temporary directory, leaves while preparing, or executes. -/
inductive RunShape (env : Env) : Run → Prop where
  | collectExit (o : Outcome) (s : State) (h : CollectExit env o s) : RunShape env ⟨o, s⟩
  | tempDirFailed (s : State) (e : GoError) (h : Collected env s)
    (ht : env.TempDir "" "triton-kubernetes-" = .error e) :
    RunShape env ⟨.returned (some e), s⟩
  | prepareExit (s0 : State) (d : String) (o : Outcome) (s : State) (h : Collected env s0)
    (ht : env.TempDir "" "triton-kubernetes-" = .ok d)
    (hp : PrepareExit env (entered s0 d) o s) :
    RunShape env ⟨o, s.emit (.removeAll d)⟩
  | executed (s0 : State) (d : String) (s : State) (o : Outcome) (added : List Event)
    (h : Collected env s0) (ht : env.TempDir "" "triton-kubernetes-" = .ok d)
    (hp : Prepared env (entered s0 d) s) (he : Executed env s o added) :
    RunShape env ⟨o, { s with trace := s.trace ++ added ++ [.removeAll d] }⟩

/-- The state of the compose step for hostname `a.b`, cluster `cluster_abc` and
a document with an empty `module` mapping. -/
def dottedState : State :=
  { cfg := { Hostname := "a.b" }
    clusterKey := "cluster_abc"
    parsedConfig := some (.object [("module", .object [])]) }

mutual
/-- A plain rendering of a JSON value, standing in for `json.MarshalIndent`. -/
def render : Json → String
  | .null => "null"
  | .bool b => if b then "true" else "false"
  | .number lit => lit
  | .string s => "\"" ++ s ++ "\""
  | .array xs => "[" ++ renderElems xs ++ "]"
  | .object kvs => "\x7b" ++ renderFields kvs ++ "\x7d"
/-- The elements of an array, rendered. -/
def renderElems : List Json → String
  | [] => ""
  | x :: xs => render x ++ "," ++ renderElems xs
/-- The fields of an object, rendered. -/
def renderFields : List (String × Json) → String
  | [] => ""
  | (k, v) :: kvs => "\"" ++ k ++ "\":" ++ render v ++ "," ++ renderFields kvs
end

/-- The document of the end-to-end scenario: one cluster, `cluster_abc`, named `prod`. -/
def scenarioDocument : Json :=
  .object [("module", .object [("cluster_abc", .object [("name", .string "prod")])])]

/-- The settings of the end-to-end scenario, for a role selector and a cluster name. -/
def scenarioSettings (hostLabel clusterName : String) (key : String) : Option String :=
  if key = "hostname" then some "node1"
  else if key = "rancher_host_label" then some hostLabel
  else if key = "triton_account" then some "account"
  else if key = "triton_key_path" then some "/keys/id_rsa"
  else if key = "triton_key_id" then some "aa:bb"
  else if key = "triton_url" then some ""
  else if key = "cluster_manager" then some "dev"
  else if key = "cluster_name" then some clusterName
  else none

/-- The end-to-end scenario: every setting is supplied, the store lists the
given directory and holds `scenarioDocument`, the shell answers as given, and
every other call succeeds. -/
def scenario (hostLabel clusterName : String) (listing : ListDirectoryOutput)
    (shell : String → List String → Option GoError) : Env where
  viper := scenarioSettings hostLabel clusterName
  promptRun := fun _ => .error ⟨"no terminal"⟩
  selectRun := fun _ _ => .error ⟨"no terminal"⟩
  GetPublicKeyFingerprintFromPrivateKey := fun _ => .ok "aa:bb"
  ReadFile := fun _ => .ok "key material"
  NewPrivateKeySigner := fun _ _ _ => none
  NewClient := fun _ _ _ => none
  ListDirectory := fun _ _ => .ok listing
  TempDir := fun _ _ => .ok "/tmp/triton-kubernetes-1"
  Get := fun _ => .ok (.ok "main.tf.json")
  ParseJSON := fun _ => .ok scenarioDocument
  order := ⟨id, fun _ => List.Perm.refl _⟩
  MarshalIndent := fun v _ _ => .ok (render v)
  WriteFile := fun _ _ _ => none
  RunShellCommand := fun _ command args => shell command args
  Put := fun _ _ _ => none

/-- A shell in which every command succeeds. -/
def shellOk : String → List String → Option GoError := fun _ _ => none

/-- A shell in which `terraform init` fails. -/
def shellInitFails : String → List String → Option GoError := fun command args =>
  if command = "terraform" ∧ args = ["init", "-force-copy"] then some ⟨"exit status 1"⟩ else none

/-- The spec's end-to-end scenario: role `compute`, cluster `prod`, all calls succeed. -/
def envE2E : Env := scenario "compute" "prod" ⟨["dev"], 1⟩ shellOk

/-- The scenario with `terraform init` failing. -/
def envInitFails : Env := scenario "compute" "prod" ⟨["dev"], 1⟩ shellInitFails

/-- The scenario with a cluster name no cluster has. -/
def envUnknownCluster : Env := scenario "compute" "staging" ⟨["dev"], 1⟩ shellOk

/-- The scenario with an empty listing. -/
def envNoManagers : Env := scenario "compute" "prod" ⟨[], 0⟩ shellOk

/-- The scenario with a role selector that is not offered. -/
def envBadLabel : Env := scenario "worker" "prod" ⟨["dev"], 1⟩ shellOk

/-- The state the collecting blocks hand over in the scenario. -/
def scenarioCollected : State :=
  { trace := [.list "/stor/triton-kubernetes" 100]
    hostLabel := "compute"
    clusterManager := "dev"
    cfg :=
      { Source := "./terraform/modules/triton-rancher-k8s-host"
        Hostname := "node1"
        RancherAPIURL := "http://$\x7belement(module.cluster-manager.masters, 0)\x7d:8080"
        RancherHostLabels := { Compute := true }
        TritonAccount := "account"
        TritonKeyPath := "/keys/id_rsa"
        TritonKeyID := "aa:bb" }
    result := ⟨["dev"], 1⟩ }

/-- A document in which `module.node_a` is already taken by a string. -/
def collisionDocument : Json :=
  .object [("module", .object
    [("cluster_abc", .object [("name", .string "prod")]), ("node_a", .string "x")])]

/-- The end-to-end scenario with hostname `a.b` and the store holding
`collisionDocument`; every call succeeds. -/
def envDottedHostname : Env :=
  { envE2E with
    viper := fun key =>
      if key = "hostname" then some "a.b" else scenarioSettings "compute" "prod" key
    ParseJSON := fun _ => .ok collisionDocument }

/-- The state the collecting blocks hand over in the scenario with hostname `a.b`. -/
def dottedCollected : State :=
  { scenarioCollected with cfg := { scenarioCollected.cfg with Hostname := "a.b" } }

/-- A visiting order other than the stored one: last entry first. -/
def reverseOrder : RangeOrder := ⟨List.reverse, fun m => List.reverse_perm m⟩

/-! ## Properties -/

theorem stringsIndexFrom_ne_of_lt (substr : List Char) (s : List Char) (i j : Nat) (h : j < i) :
    stringsIndexFrom substr s i ≠ (j : Int) := by
  induction s generalizing i with
  | nil =>
    unfold stringsIndexFrom
    split <;> omega
  | cons c cs ih =>
    unfold stringsIndexFrom
    split
    · omega
    · exact ih (i + 1) (by omega)

/-- The test of line 390: `strings.Index(key, p) == 0` says that `key` starts with `p`. -/
theorem stringsIndex_eq_zero_iff (s p : String) : stringsIndex s p = 0 ↔ HasPrefix s p := by
  unfold stringsIndex HasPrefix
  cases hs : s.data with
  | nil =>
    unfold stringsIndexFrom
    rw [← List.isPrefixOf_iff_prefix]
    split <;> simp_all
  | cons c cs =>
    unfold stringsIndexFrom
    rw [← List.isPrefixOf_iff_prefix]
    split
    · simp_all
    · have := stringsIndexFrom_ne_of_lt p.data cs 1 0 (by omega)
      simp_all

theorem splitOnChar_ne_nil (sep : Char) (s : List Char) : splitOnChar sep s ≠ [] := by
  cases s with
  | nil => simp [splitOnChar]
  | cons c cs =>
    unfold splitOnChar
    split
    · simp
    · split <;> simp

/-- Text without the separator is a single segment. -/
theorem splitOnChar_of_not_mem (sep : Char) (s : List Char) (h : sep ∉ s) :
    splitOnChar sep s = [s] := by
  induction s with
  | nil => rfl
  | cons c cs ih =>
    have hc : c ≠ sep := fun e => h (by simp [e])
    have hcs : sep ∉ cs := fun e => h (by simp [e])
    unfold splitOnChar
    simp [hc, ih hcs]

/-- Splitting after a prefix free of the separator extends the first segment. -/
theorem splitOnChar_append (sep : Char) (p s : List Char) (h : sep ∉ p) :
    splitOnChar sep (p ++ s) =
      (p ++ (splitOnChar sep s).headD []) :: (splitOnChar sep s).tail := by
  induction p with
  | nil =>
    have := splitOnChar_ne_nil sep s
    cases hsp : splitOnChar sep s with
    | nil => exact absurd hsp this
    | cons a as => simp [hsp]
  | cons c cs ih =>
    have hc : c ≠ sep := fun e => h (by simp [e])
    have hcs : sep ∉ cs := fun e => h (by simp [e])
    have e : splitOnChar sep (c :: cs ++ s) =
        match splitOnChar sep (cs ++ s) with
        | [] => [[c]]
        | seg :: segs => (c :: seg) :: segs := by
      show splitOnChar sep (c :: (cs ++ s)) = _
      rw [splitOnChar]
      simp [hc]
    rw [e, ih hcs]
    simp

/-- The path of line 331 for a hostname without a dot: two names. -/
theorem stringsSplit_module_path (h : String) (hdot : '.' ∉ h.data) :
    stringsSplit ("module." ++ ("node_" ++ h)) '.' = ["module", "node_" ++ h] := by
  unfold stringsSplit
  have e1 : ("module." ++ ("node_" ++ h)).data =
      "module".data ++ ('.' :: ("node_".data ++ h.data)) := by
    simp [String.data_append]
  have h1 : '.' ∉ "module".data := by decide
  have h2 : '.' ∉ "node_".data ++ h.data := by
    have : '.' ∉ "node_".data := by decide
    simp_all
  rw [e1, splitOnChar_append _ _ _ h1]
  have e2 : splitOnChar '.' ('.' :: ("node_".data ++ h.data)) =
      [[], "node_".data ++ h.data] := by
    rw [splitOnChar, splitOnChar_of_not_mem _ _ h2]
    simp
  rw [e2]
  simp [String.ext_iff, String.data_append]

theorem mapGet_mapSet_self (m : List (String × Json)) (k : String) (v : Json) :
    mapGet (mapSet m k v) k = some v := by
  induction m with
  | nil => simp [mapSet, mapGet]
  | cons kv rest ih =>
    obtain ⟨k', v'⟩ := kv
    unfold mapSet
    split
    · simp [mapGet]
    · simp_all [mapGet]

theorem mapGet_mapSet_of_ne (m : List (String × Json)) (k k' : String) (v : Json) (h : k' ≠ k) :
    mapGet (mapSet m k v) k' = mapGet m k' := by
  induction m with
  | nil => simp [mapSet, mapGet, Ne.symm h]
  | cons kv rest ih =>
    obtain ⟨k0, v0⟩ := kv
    unfold mapSet
    split
    · rename_i hk
      subst hk
      simp [mapGet, Ne.symm h]
    · simp [mapGet, ih]

/-- Entries at other keys are exactly those of the map before the assignment. -/
theorem mem_mapSet_of_ne (m : List (String × Json)) (k k' : String) (v v' : Json) (h : k' ≠ k) :
    (k', v') ∈ mapSet m k v ↔ (k', v') ∈ m := by
  induction m with
  | nil => simp [mapSet, h]
  | cons kv rest ih =>
    obtain ⟨k0, v0⟩ := kv
    unfold mapSet
    split
    · rename_i hk
      subst hk
      simp [h]
    · simp [ih]

/-- In a map with distinct keys, the assigned key has exactly one entry afterwards. -/
theorem filter_mapSet_self (m : List (String × Json)) (k : String) (v : Json)
    (hm : (m.map Prod.fst).Nodup) :
    (mapSet m k v).filter (fun kv => kv.1 = k) = [(k, v)] := by
  induction m with
  | nil => simp [mapSet]
  | cons kv rest ih =>
    obtain ⟨k0, v0⟩ := kv
    simp only [List.map_cons, List.nodup_cons] at hm
    unfold mapSet
    split
    · rename_i hk
      subst hk
      have : ∀ kv ∈ rest, ¬ (kv.1 = k0) := by
        intro kv hkv e
        exact hm.1 (e ▸ List.mem_map_of_mem Prod.fst hkv)
      have hnil : rest.filter (fun kv => kv.1 = k0) = [] := by
        rw [List.filter_eq_nil_iff]
        intro kv hkv
        simpa using this kv hkv
      simp [hnil]
    · rename_i hk
      simp [hk, ih hm.2]

theorem mapSet_keys_nodup (m : List (String × Json)) (k : String) (v : Json)
    (hm : (m.map Prod.fst).Nodup) : ((mapSet m k v).map Prod.fst).Nodup := by
  induction m with
  | nil => simp [mapSet]
  | cons kv rest ih =>
    obtain ⟨k0, v0⟩ := kv
    simp only [List.map_cons, List.nodup_cons] at hm
    unfold mapSet
    split
    · rename_i hk
      subst hk
      simpa using hm
    · rename_i hk
      simp only [List.map_cons, List.nodup_cons]
      refine ⟨?_, ih hm.2⟩
      intro hmem
      obtain ⟨⟨k1, v1⟩, h1, h2⟩ := List.mem_map.1 hmem
      simp only at h2
      subst h2
      by_cases e : k1 = k
      · exact hk e
      · exact hm.1 (List.mem_map_of_mem Prod.fst ((mem_mapSet_of_ne rest k k1 v v1 e).1 h1))

theorem mapGet_eq_some_of_mem (m : List (String × Json)) (k : String) (v : Json)
    (hm : (m.map Prod.fst).Nodup) (h : (k, v) ∈ m) : mapGet m k = some v := by
  induction m with
  | nil => simp at h
  | cons kv rest ih =>
    obtain ⟨k0, v0⟩ := kv
    simp only [List.map_cons, List.nodup_cons] at hm
    simp only [List.mem_cons, Prod.mk.injEq] at h
    unfold mapGet
    rcases h with ⟨rfl, rfl⟩ | h
    · simp
    · have : k0 ≠ k := fun e => hm.1 (e ▸ List.mem_map_of_mem Prod.fst h)
      simp [this, ih hm.2 h]

theorem mem_of_mapGet_eq_some (m : List (String × Json)) (k : String) (v : Json)
    (h : mapGet m k = some v) : (k, v) ∈ m := by
  induction m with
  | nil => simp [mapGet] at h
  | cons kv rest ih =>
    obtain ⟨k0, v0⟩ := kv
    unfold mapGet at h
    split at h
    · simp_all
    · simp [ih h]

theorem searchValue_nil (v : Json) : searchValue v [] = some v := by
  cases v <;> simp [searchValue]

/-- Searching an object for one name is the map lookup. -/
theorem searchField_single (m : List (String × Json)) (k : String) :
    searchField m k [] = mapGet m k := by
  induction m with
  | nil => simp [searchField, mapGet]
  | cons kv rest ih =>
    obtain ⟨k0, v0⟩ := kv
    simp [searchField, mapGet, searchValue_nil, ih]

/-- Searching an array yields nothing or an array. -/
theorem searchValue_array (xs : List Json) (t : String) (rest : List String) :
    searchValue (.array xs) (t :: rest) = none ∨
      ∃ ys, searchValue (.array xs) (t :: rest) = some (.array ys) := by
  rw [searchValue]
  split
  · exact Or.inl rfl
  · exact Or.inr ⟨_, rfl⟩

/-- The `name` read at line 391 is a string exactly for an object whose `name`
field is a string. -/
theorem name_eq_string_iff (v : Json) (name : String) :
    Container.Data (Container.Path (some v) "name") = .string name ↔
      ∃ fields, v = .object fields ∧ mapGet fields "name" = some (.string name) := by
  have hsplit : stringsSplit "name" '.' = ["name"] := by decide
  simp only [Container.Path, Container.Search, hsplit, Container.Data]
  cases v with
  | object fields =>
    rw [searchValue, searchField_single]
    cases h : mapGet fields "name" <;> simp [h]
  | array xs =>
    rcases searchValue_array xs "name" [] with h | ⟨ys, h⟩ <;> simp [h]
  | null => simp [searchValue]
  | bool b => simp [searchValue]
  | number n => simp [searchValue]
  | string s => simp [searchValue]

/-- The children read at line 384 exist exactly for a document with a `module`
mapping. -/
theorem childrenMap_module (doc : Json) :
    (∃ top m, doc = .object top ∧ mapGet top "module" = some (.object m) ∧
      Container.ChildrenMap (Container.S (some doc) ["module"]) =
        .ok (m.map fun kv => (kv.1, some kv.2))) ∨
    ((¬ ∃ top m, doc = .object top ∧ mapGet top "module" = some (.object m)) ∧
      Container.ChildrenMap (Container.S (some doc) ["module"]) = .error ErrNotObj) := by
  simp only [Container.S, Container.Search, Container.Data, Container.ChildrenMap]
  cases doc with
  | object top =>
    rw [searchValue, searchField_single]
    cases h : mapGet top "module" with
    | none => simp [h]
    | some v => cases v <;> simp [h]
  | array xs =>
    rcases searchValue_array xs "module" [] with h | ⟨ys, h⟩ <;> simp [h]
  | null => simp [searchValue]
  | bool b => simp [searchValue]
  | number n => simp [searchValue]
  | string s => simp [searchValue]

theorem visit_eq (acc : List clusterOption) (e : String × Container) :
    getClusterOptions.visit acc e = acc ++ (clusterOptionOf e).toList := by
  simp only [getClusterOptions.visit, clusterOptionOf, stringsIndex_eq_zero_iff]
  by_cases hp : HasPrefix e.1 "cluster_"
  · simp only [hp, if_true]
    split <;> simp
  · simp [hp]

theorem foldl_visit (l : List (String × Container)) (acc : List clusterOption) :
    l.foldl getClusterOptions.visit acc = acc ++ l.filterMap clusterOptionOf := by
  induction l generalizing acc with
  | nil => simp
  | cons e rest ih =>
    rw [List.foldl_cons, ih, visit_eq, List.filterMap_cons]
    cases clusterOptionOf e <;> simp

theorem clusterOptionOf_eq_some (k : String) (v : Json) (o : clusterOption) :
    clusterOptionOf (k, some v) = some o ↔
      HasPrefix k "cluster_" ∧ o.ClusterKey = k ∧
      ∃ fields, v = .object fields ∧ mapGet fields "name" = some (.string o.ClusterName) := by
  unfold clusterOptionOf
  by_cases hp : HasPrefix k "cluster_"
  · simp only [hp, if_true, true_and]
    constructor
    · intro h
      split at h
      · rename_i name hname
        cases h
        exact ⟨rfl, (name_eq_string_iff v name).1 hname⟩
      · cases h
    · rintro ⟨hk, hf⟩
      have := (name_eq_string_iff v o.ClusterName).2 hf
      simp only [this]
      cases o
      simp_all
  · simp [hp]

theorem keys_filterMap_sublist (l : List (String × Container)) :
    ((l.filterMap clusterOptionOf).map (·.ClusterKey)).Sublist (l.map Prod.fst) := by
  induction l with
  | nil => simp
  | cons e rest ih =>
    rw [List.filterMap_cons]
    split
    · exact (ih.trans (List.sublist_cons_self _ _))
    · rename_i o ho
      have : o.ClusterKey = e.1 := by
        unfold clusterOptionOf at ho
        split at ho
        · split at ho
          · cases ho; rfl
          · cases ho
        · cases ho
      simp only [List.map_cons, this]
      exact ih.cons₂ _

/-- The options listed for a module map, whatever the order of the visit. -/
theorem getClusterOptions_of_module (order : RangeOrder) (top m : List (String × Json))
    (hmod : mapGet top "module" = some (.object m)) :
    ∃ opts, getClusterOptions order (some (.object top)) = .ok opts ∧
      (∀ o, o ∈ opts ↔ ∃ v, (o.ClusterKey, v) ∈ m ∧ HasPrefix o.ClusterKey "cluster_" ∧
        ∃ fields, v = .object fields ∧ mapGet fields "name" = some (.string o.ClusterName)) ∧
      ((m.map Prod.fst).Nodup → (opts.map (·.ClusterKey)).Nodup) := by
  rcases childrenMap_module (.object top) with ⟨top', m', he, hm', hc⟩ | ⟨hno, _⟩
  · cases he
    rw [hmod] at hm'
    cases hm'
    refine ⟨_, by rw [getClusterOptions, hc], ?_, ?_⟩
    · intro o
      rw [foldl_visit, List.nil_append, List.mem_filterMap]
      constructor
      · rintro ⟨⟨k, c⟩, hmem, ho⟩
        have hmem' := (order.perm _).mem_iff.1 hmem
        obtain ⟨⟨k1, v1⟩, h1, h2⟩ := List.mem_map.1 hmem'
        cases h2
        obtain ⟨hp, hk, hf⟩ := (clusterOptionOf_eq_some k1 v1 o).1 ho
        exact ⟨v1, hk ▸ h1, hk ▸ hp, hf⟩
      · rintro ⟨v, hv, hp, hf⟩
        refine ⟨(o.ClusterKey, some v), (order.perm _).mem_iff.2 ?_, ?_⟩
        · exact List.mem_map.2 ⟨(o.ClusterKey, v), hv, rfl⟩
        · exact (clusterOptionOf_eq_some _ v o).2 ⟨hp, rfl, hf⟩
    · intro hnodup
      rw [foldl_visit, List.nil_append]
      have hperm := ((order.perm (m.map fun kv => (kv.1, some kv.2))).filterMap
        clusterOptionOf).map (·.ClusterKey)
      rw [hperm.nodup_iff]
      refine (keys_filterMap_sublist _).nodup ?_
      simpa [List.map_map, Function.comp_def] using hnodup
  · exact absurd ⟨top, m, rfl, hmod⟩ hno

@[simp] theorem Flow.andThen_next (s : State) (k : State → Flow) :
    (Flow.next s).andThen k = k s := rfl

@[simp] theorem Flow.andThen_exit (o : Outcome) (s : State) (k : State → Flow) :
    (Flow.exit o s).andThen k = .exit o s := rfl

theorem Flow.Sat.andThen {N N' : State → Prop} {X : Outcome → State → Prop} {f : Flow}
    {k : State → Flow} (hf : f.Sat N X) (hk : ∀ s, N s → (k s).Sat N' X) :
    (f.andThen k).Sat N' X := by
  cases f with
  | next s => exact hk s hf
  | exit o s => exact hf

namespace NewTritonNode

theorem hostname_sat (env : Env) :
    (hostname env start).Sat
      (fun s => Untouched s ∧ s.trace = [] ∧ s.cfg.RancherHostLabels = {} ∧ s.cfg.Hostname ≠ "")
      (fun o s => CollectExit env o s) := by
  unfold hostname
  split
  · simp only []
    split <;> simp_all [Flow.Sat, State.fail, Untouched, CollectExit, start]
  · split
    · simp_all [Flow.Sat, State.fail, Untouched, CollectExit, start]
    · simp only []
      split <;> simp_all [Flow.Sat, State.fail, Untouched, CollectExit, start]

theorem selectHostLabel_sat (env : Env) (s : State)
    (h : Untouched s ∧ s.trace = [] ∧ s.cfg.RancherHostLabels = {} ∧ s.cfg.Hostname ≠ "") :
    (selectHostLabel env s).Sat
      (fun s => Untouched s ∧ s.trace = [] ∧ s.cfg.RancherHostLabels = {} ∧ s.cfg.Hostname ≠ "")
      (fun o s => CollectExit env o s) := by
  unfold selectHostLabel
  split
  · simp_all [Flow.Sat, Untouched]
  · split
    · simp_all [Flow.Sat, State.fail, Untouched, CollectExit]
    · split <;> simp_all [Flow.Sat, State.fail, Untouched, CollectExit]

theorem setHostLabel_sat (env : Env) (s : State)
    (h : Untouched s ∧ s.trace = [] ∧ s.cfg.RancherHostLabels = {} ∧ s.cfg.Hostname ≠ "") :
    (setHostLabel s).Sat
      (fun s => Untouched s ∧ s.trace = [] ∧ OneRole s.cfg.RancherHostLabels ∧ s.cfg.Hostname ≠ "")
      (fun o s => CollectExit env o s) := by
  unfold setHostLabel
  split
  · simp_all [Flow.Sat, Untouched, OneRole]
  · split
    · simp_all [Flow.Sat, Untouched, OneRole]
    · split <;> simp_all [Flow.Sat, State.fail, Untouched, CollectExit, OneRole]

theorem rancherAPIURL_sat (env : Env) (s : State)
    (h : Untouched s ∧ s.trace = [] ∧ OneRole s.cfg.RancherHostLabels ∧ s.cfg.Hostname ≠ "") :
    (rancherAPIURL s).Sat (fun s => Labelled s ∧ s.trace = []) (fun o s => CollectExit env o s) := by
  simp_all [rancherAPIURL, Flow.Sat, Untouched, Labelled]

theorem tritonAccount_sat (env : Env) (s : State) (h : Labelled s ∧ s.trace = []) :
    (tritonAccount env s).Sat (fun s => Labelled s ∧ s.trace = [])
      (fun o s => CollectExit env o s) := by
  unfold tritonAccount
  split
  · simp_all [Flow.Sat, Untouched, Labelled]
  · split <;> simp_all [Flow.Sat, State.fail, Untouched, Labelled, CollectExit]

theorem tritonKeyPath_sat (env : Env) (s : State) (h : Labelled s ∧ s.trace = []) :
    (tritonKeyPath env s).Sat (fun s => Labelled s ∧ s.trace = [])
      (fun o s => CollectExit env o s) := by
  unfold tritonKeyPath
  split
  · simp_all [Flow.Sat, Untouched, Labelled]
  · split <;> simp_all [Flow.Sat, State.fail, Untouched, Labelled, CollectExit]

theorem tritonKeyID_sat (env : Env) (s : State) (h : Labelled s ∧ s.trace = []) :
    (tritonKeyID env s).Sat (fun s => Labelled s ∧ s.trace = [])
      (fun o s => CollectExit env o s) := by
  unfold tritonKeyID
  split
  · simp_all [Flow.Sat, Untouched, Labelled]
  · split <;> simp_all [Flow.Sat, State.fail, Untouched, Labelled, CollectExit]

theorem tritonURL_sat (env : Env) (s : State) (h : Labelled s ∧ s.trace = []) :
    (tritonURL env s).Sat (fun s => Labelled s ∧ s.trace = [])
      (fun o s => CollectExit env o s) := by
  unfold tritonURL
  split
  · simp_all [Flow.Sat, Untouched, Labelled]
  · split <;> simp_all [Flow.Sat, State.fail, Untouched, Labelled, CollectExit]

theorem storageClient_sat (env : Env) (s : State) (h : Labelled s ∧ s.trace = []) :
    (storageClient env s).Sat (fun s => Labelled s ∧ s.trace = [])
      (fun o s => CollectExit env o s) := by
  unfold storageClient
  split
  · simp_all [Flow.Sat, State.fail, Untouched, Labelled, CollectExit]
  · split
    · simp_all [Flow.Sat, State.fail, Untouched, Labelled, CollectExit]
    · split <;> simp_all [Flow.Sat, State.fail, Untouched, Labelled, CollectExit]

theorem listClusterManagers_sat (env : Env) (s : State) (h : Labelled s ∧ s.trace = []) :
    (listClusterManagers env s).Sat (Collected env) (fun o s => CollectExit env o s) := by
  unfold listClusterManagers
  simp only [show "/stor/" ++ "triton-kubernetes" = "/stor/triton-kubernetes" from by decide]
  split
  · simp_all [Flow.Sat, State.fail, State.emit, Untouched, Labelled, CollectExit]
  · split <;>
      simp_all [Flow.Sat, State.fail, State.emit, Untouched, Labelled, CollectExit, Collected]

theorem selectClusterManager_sat (env : Env) (s : State) (h : Collected env s) :
    (selectClusterManager env s).Sat (Collected env) (fun o s => CollectExit env o s) := by
  unfold selectClusterManager
  split
  · simp_all [Flow.Sat, Untouched, Labelled, Collected]
  · split
    · simp_all [Flow.Sat, State.fail, Untouched, Labelled, Collected, CollectExit]
    · split <;> simp_all [Flow.Sat, State.fail, Untouched, Labelled, Collected, CollectExit]

/-- The collecting blocks either hand over a `Collected` state or leave with
nothing staged. -/
theorem collect_sat (env : Env) :
    (collect env).Sat (Collected env) (fun o s => CollectExit env o s) := by
  unfold collect
  exact ((((((((((hostname_sat env).andThen (selectHostLabel_sat env)).andThen
    (setHostLabel_sat env)).andThen (rancherAPIURL_sat env)).andThen
    (tritonAccount_sat env)).andThen (tritonKeyPath_sat env)).andThen
    (tritonKeyID_sat env)).andThen (tritonURL_sat env)).andThen
    (storageClient_sat env)).andThen (listClusterManagers_sat env)).andThen
    (selectClusterManager_sat env)

end NewTritonNode

theorem hasPrefix_ne_empty (k : String) (h : HasPrefix k "cluster_") : k ≠ "" := by
  rintro rfl
  revert h
  decide

/-- A successful listing comes from a `module` mapping, and lists its named clusters. -/
theorem getClusterOptions_ok (order : RangeOrder) (doc : Json) (opts : List clusterOption)
    (h : getClusterOptions order (some doc) = .ok opts) :
    ∃ top m, doc = .object top ∧ mapGet top "module" = some (.object m) ∧
      (∀ o, o ∈ opts ↔ ∃ v, (o.ClusterKey, v) ∈ m ∧ HasPrefix o.ClusterKey "cluster_" ∧
        ∃ fields, v = .object fields ∧ mapGet fields "name" = some (.string o.ClusterName)) ∧
      ((m.map Prod.fst).Nodup → (opts.map (·.ClusterKey)).Nodup) := by
  rcases childrenMap_module doc with ⟨top, m, he, hm, _⟩ | ⟨_, herr⟩
  · subst he
    obtain ⟨opts', h', hmem, hnd⟩ := getClusterOptions_of_module order top m hm
    rw [h] at h'
    cases h'
    exact ⟨top, m, rfl, hm, hmem, hnd⟩
  · rw [getClusterOptions, herr] at h
    cases h

theorem getClusterOptions_key_ne (order : RangeOrder) (doc : Json) (opts : List clusterOption)
    (h : getClusterOptions order (some doc) = .ok opts) : ∀ o ∈ opts, o.ClusterKey ≠ "" := by
  obtain ⟨top, m, _, _, hmem, _⟩ := getClusterOptions_ok order doc opts h
  intro o ho
  obtain ⟨_, _, hp, _⟩ := (hmem o).1 ho
  exact hasPrefix_ne_empty _ hp

namespace NewTritonNode

/-- The loop of lines 297-302 finds the first option with the given name. -/
theorem findClusterKey_spec (n : String) (opts : List clusterOption)
    (hk : ∀ o ∈ opts, o.ClusterKey ≠ "") :
    ((∀ o ∈ opts, o.ClusterName ≠ n) ∧ findClusterKey n opts "" = "") ∨
    (∃ o ∈ opts, o.ClusterName = n ∧ o.ClusterKey = findClusterKey n opts "" ∧
      findClusterKey n opts "" ≠ "") := by
  induction opts with
  | nil => simp [findClusterKey]
  | cons o rest ih =>
    unfold findClusterKey
    by_cases hn : n = o.ClusterName
    · right
      exact ⟨o, by simp, hn.symm, by simp [hn], by simpa [hn] using hk o (by simp)⟩
    · simp only [hn, if_false]
      rcases ih (fun x hx => hk x (by simp [hx])) with ⟨h1, h2⟩ | ⟨x, hx, h1, h2, h3⟩
      · left
        refine ⟨?_, h2⟩
        intro y hy
        rcases List.mem_cons.1 hy with rfl | hy
        · exact fun e => hn e.symm
        · exact h1 y hy
      · right
        exact ⟨x, by simp [hx], h1, h2, h3⟩

theorem load_sat (env : Env) (s : State) :
    (load env s).Sat (fun s' => ∃ parsed, Fetched env s parsed ∧ s' = afterLoad s parsed)
      (fun o s' => s' = afterGet s ∧ ∃ e, o = .returned (some e)) := by
  unfold load
  simp only []
  split
  · simp [Flow.Sat, State.fail, afterGet]
  · split
    · simp [Flow.Sat, State.fail, afterGet]
    · split
      · simp [Flow.Sat, State.fail, afterGet]
      · simp_all [Flow.Sat, afterGet, afterLoad, Fetched]

theorem existingClusters_sat (env : Env) (s : State) (parsed : Json) :
    (existingClusters env (afterLoad s parsed)).Sat
      (fun s' => ∃ opts, getClusterOptions env.order (some parsed) = .ok opts ∧
        s' = afterListing s parsed opts)
      (fun o s' => s' = afterLoad s parsed ∧
        ∃ e, getClusterOptions env.order (some parsed) = .error e ∧ o = .returned (some e)) := by
  unfold existingClusters
  have hp : (afterLoad s parsed).parsedConfig = some parsed := rfl
  rw [hp]
  split
  · simp_all [Flow.Sat, State.fail]
  · simp_all [Flow.Sat, afterListing]

theorem clusterName_sat (env : Env) (s : State) (parsed : Json) (opts : List clusterOption)
    (hs : s.clusterKey = "") (hk : ∀ o ∈ opts, o.ClusterKey ≠ "") :
    (clusterName env (afterListing s parsed opts)).Sat
      (fun s' => ∃ key, key ≠ "" ∧
        (∃ o ∈ opts, o.ClusterKey = key ∧
          ∀ n, env.viper "cluster_name" = some n → o.ClusterName = n) ∧
        s' = afterSelect s parsed opts key)
      (fun o s' => s' = afterListing s parsed opts ∧ ResolveFailed env opts o) := by
  have hkey : (afterListing s parsed opts).clusterKey = "" := hs
  have hopts : (afterListing s parsed opts).clusterOptions = some opts := rfl
  have heta : ({ afterListing s parsed opts with clusterKey := "" } : State) =
      afterListing s parsed opts := by
    rw [← hkey]
  unfold clusterName
  simp only [hopts, hkey, Option.getD_some]
  split
  · rename_i n hn
    rcases findClusterKey_spec n opts hk with ⟨h1, h2⟩ | ⟨x, hx, h1, h2, h3⟩
    · simp only [h2, if_true]
      exact ⟨heta, Or.inl ⟨n, hn, h1, rfl⟩⟩
    · simp only [h3, if_false]
      exact ⟨_, h3, ⟨x, hx, h2, fun n' hn' => by rw [hn] at hn'; cases hn'; exact h1⟩, rfl⟩
  · rename_i hn
    split
    · exact ⟨rfl, Or.inr ⟨hn, Or.inr ⟨_, rfl⟩⟩⟩
    · split
      · exact ⟨rfl, Or.inr ⟨hn, Or.inl rfl⟩⟩
      · rename_i i option hi
        have hmem : option ∈ opts := List.getElem?_mem hi
        simp only [hk option hmem, if_false]
        exact ⟨_, hk option hmem, ⟨option, hmem, rfl, fun n' hn' => by rw [hn] at hn'; cases hn'⟩,
          rfl⟩

theorem prepare_sat (env : Env) (s : State) (hs : s.clusterKey = "") :
    (prepare env s).Sat (Prepared env s) (PrepareExit env s) := by
  unfold prepare
  refine Flow.Sat.andThen (N := fun s' => ∃ parsed opts key, Fetched env s parsed ∧
    getClusterOptions env.order (some parsed) = .ok opts ∧ key ≠ "" ∧
    (∃ o ∈ opts, o.ClusterKey = key ∧
      ∀ n, env.viper "cluster_name" = some n → o.ClusterName = n) ∧
    s' = afterSelect s parsed opts key) ?_ ?_
  · refine Flow.Sat.andThen (N := fun s' => ∃ parsed opts, Fetched env s parsed ∧
      getClusterOptions env.order (some parsed) = .ok opts ∧
      s' = afterListing s parsed opts) ?_ ?_
    · refine Flow.Sat.andThen (N := fun s' => ∃ parsed, Fetched env s parsed ∧
        s' = afterLoad s parsed) ?_ ?_
      · have := load_sat env s
        cases h : load env s with
        | next s' => rw [h] at this; exact this
        | exit o s' => rw [h] at this; exact Or.inl this
      · rintro s1 ⟨parsed, hf, rfl⟩
        have := existingClusters_sat env s parsed
        cases h : existingClusters env (afterLoad s parsed) with
        | next s' =>
          rw [h] at this
          obtain ⟨opts, ho, hs'⟩ := this
          exact ⟨parsed, opts, hf, ho, hs'⟩
        | exit o s' =>
          rw [h] at this
          obtain ⟨hs', e, he, ho⟩ := this
          exact Or.inr (Or.inl ⟨parsed, hf, hs', e, he, ho⟩)
    · rintro s2 ⟨parsed, opts, hf, ho, rfl⟩
      have := clusterName_sat env s parsed opts hs (getClusterOptions_key_ne _ _ _ ho)
      cases h : clusterName env (afterListing s parsed opts) with
      | next s' =>
        rw [h] at this
        obtain ⟨key, hk, hsel, hs'⟩ := this
        exact ⟨parsed, opts, key, hf, ho, hk, hsel, hs'⟩
      | exit o s' =>
        rw [h] at this
        obtain ⟨hs', hfail⟩ := this
        exact Or.inr (Or.inr ⟨parsed, opts, hf, ho, hs', hfail⟩)
  · rintro s3 ⟨parsed, opts, key, hf, ho, hk, hsel, rfl⟩
    exact ⟨parsed, opts, key, hf, ho, hk, hsel, rfl⟩

theorem execute_finish (env : Env) (s : State) :
    ∃ o added, Executed env s o added ∧
      (execute env s).finish = ⟨o, { s with trace := s.trace ++ added }⟩ := by
  rcases hw : writeResult env s with _ | e
  · rcases hc : copyResult env s with _ | e
    · rcases hi : initResult env s with _ | e
      · rcases ha : applyResult env s with _ | e
        · rcases hp : putResult env s with _ | e
          · refine ⟨_, _, .done hw hc hi ha hp, ?_⟩
            simp only [writeResult, copyResult, initResult, applyResult, putResult] at hw hc hi ha hp
            simp [execute, stage, apply, commit, State.emit, State.fail, Flow.finish, hw, hc, hi,
              ha, hp, writeEvent, copyEvent, initEvent, applyEvent, putEvent]
          · refine ⟨_, _, .putFailed e hw hc hi ha hp, ?_⟩
            simp only [writeResult, copyResult, initResult, applyResult, putResult] at hw hc hi ha hp
            simp [execute, stage, apply, commit, State.emit, State.fail, Flow.finish, hw, hc, hi,
              ha, hp, writeEvent, copyEvent, initEvent, applyEvent, putEvent]
        · refine ⟨_, _, .applyFailed e hw hc hi ha, ?_⟩
          simp only [writeResult, copyResult, initResult, applyResult] at hw hc hi ha
          simp [execute, stage, apply, State.emit, State.fail, Flow.finish, hw, hc, hi,
            ha, writeEvent, copyEvent, initEvent, applyEvent]
      · refine ⟨_, _, .initFailed e hw hc hi, ?_⟩
        simp only [writeResult, copyResult, initResult] at hw hc hi
        simp [execute, stage, apply, State.emit, State.fail, Flow.finish, hw, hc, hi,
          writeEvent, copyEvent, initEvent]
    · refine ⟨_, _, .copyFailed e hw hc, ?_⟩
      simp only [writeResult, copyResult] at hw hc
      simp [execute, stage, State.emit, State.fail, Flow.finish, hw, hc, writeEvent, copyEvent]
  · refine ⟨_, _, .writeFailed e hw, ?_⟩
    simp only [writeResult] at hw
    simp [execute, stage, State.emit, State.fail, Flow.finish, hw, writeEvent]

end NewTritonNode

/-- Every call of `NewTritonNode` has one of the four shapes. -/
theorem NewTritonNode_shape (env : Env) : RunShape env (NewTritonNode env) := by
  unfold NewTritonNode
  have hc := collect_sat env
  cases hcol : collect env with
  | exit o s =>
    rw [hcol] at hc
    exact .collectExit o s hc
  | next s0 =>
    rw [hcol] at hc
    have hkey : s0.clusterKey = "" := hc.1.1.1
    simp only [Flow.andThen_next, staged]
    cases ht : env.TempDir "" "triton-kubernetes-" with
    | error e => exact .tempDirFailed s0 e hc ht
    | ok d =>
      simp only [provision]
      have hp := prepare_sat env (entered s0 d) hkey
      change (Flow.defer (.removeAll d) ((prepare env (entered s0 d)).andThen (execute env))).finish ∈
        { r | RunShape env r }
      cases hprep : prepare env (entered s0 d) with
      | exit o s =>
        rw [hprep] at hp
        exact .prepareExit s0 d o s hc ht hp
      | next s =>
        rw [hprep] at hp
        obtain ⟨o, added, hex, hfin⟩ := execute_finish env s
        have : (Flow.defer (.removeAll d) (execute env s)).finish =
            ⟨o, { s with trace := s.trace ++ added ++ [.removeAll d] }⟩ := by
          cases hx : execute env s <;> rw [hx] at hfin <;>
            simp_all [Flow.defer, Flow.finish, State.emit]
        simp only [Flow.andThen_next, Set.mem_setOf_eq, this]
        exact .executed s0 d s o added hc ht hp hex

/-- What is known of the state `prepare` hands over, relative to the directory
`d` and the document fetched. -/
theorem prepared_facts (env : Env) (s0 s : State) (d : String) (h : Collected env s0)
    (hp : Prepared env (entered s0 d) s) :
    s.trace = [.list "/stor/triton-kubernetes" 100, .tempDir d,
      .get (mantaPath s.clusterManager)] ∧
    s.tempDir = d ∧ s.tfJSONMantaPath = mantaPath s.clusterManager ∧ s.clusterKey ≠ "" ∧
    s.cfg.RancherEnvironmentID = "$\x7bmodule." ++ s.clusterKey ++ ".environment_id\x7d" ∧
    Untouched { s0 with cfg := s.cfg } ∧ s.cfg.Hostname ≠ "" ∧
    OneRole s.cfg.RancherHostLabels ∧
    ∃ parsed opts, Fetched env s parsed ∧
      getClusterOptions env.order (some parsed) = .ok opts ∧
      s.clusterOptions = some opts ∧
      (∃ o ∈ opts, o.ClusterKey = s.clusterKey ∧
        ∀ n, env.viper "cluster_name" = some n → o.ClusterName = n) ∧
      s.parsedConfig = some (Container.SetP parsed s.cfg.toJson
        ("module." ++ ("node_" ++ s.cfg.Hostname))).1 ∧
      s.jsonBytes = some (Container.StringIndent env.MarshalIndent
        (Container.SetP parsed s.cfg.toJson ("module." ++ ("node_" ++ s.cfg.Hostname))).1
        "" "\t") := by
  obtain ⟨parsed, opts, key, hf, ho, hk, hsel, rfl⟩ := hp
  obtain ⟨⟨hu, hh, hr, ha⟩, ht, hl, hn⟩ := h
  refine ⟨?_, rfl, rfl, hk, rfl, ?_, hh, hr, parsed, opts, hf, ho, rfl, hsel, rfl, rfl⟩
  · simp [compose, afterSelect, afterListing, afterLoad, afterGet, entered, State.emit, ht]
  · simpa [Untouched, compose] using hu

/-- C2: when `terraform init` or `terraform apply` returns an error, `Put` is
never invoked and the call returns that error; `Put` is invoked only after both
have succeeded. -/
theorem NewTritonNode_no_put_unless_applied (env : Env) :
    (∀ d e, Event.runShellCommand (some d) "terraform" ["init", "-force-copy"] ∈
        (NewTritonNode env).final.trace →
      env.RunShellCommand (some d) "terraform" ["init", "-force-copy"] = some e →
      (∀ p c b, Event.put p c b ∉ (NewTritonNode env).final.trace) ∧
      (NewTritonNode env).outcome = .returned (some e)) ∧
    (∀ d e, Event.runShellCommand (some d) "terraform" ["apply", "-auto-approve"] ∈
        (NewTritonNode env).final.trace →
      env.RunShellCommand (some d) "terraform" ["apply", "-auto-approve"] = some e →
      (∀ p c b, Event.put p c b ∉ (NewTritonNode env).final.trace) ∧
      (NewTritonNode env).outcome = .returned (some e)) ∧
    (∀ p c b, Event.put p c b ∈ (NewTritonNode env).final.trace →
      ∃ d, Event.runShellCommand (some d) "terraform" ["init", "-force-copy"] ∈
          (NewTritonNode env).final.trace ∧
        env.RunShellCommand (some d) "terraform" ["init", "-force-copy"] = none ∧
        Event.runShellCommand (some d) "terraform" ["apply", "-auto-approve"] ∈
          (NewTritonNode env).final.trace ∧
        env.RunShellCommand (some d) "terraform" ["apply", "-auto-approve"] = none) := by
  have hshape := NewTritonNode_shape env
  generalize NewTritonNode env = r at hshape
  cases hshape with
  | collectExit o s h =>
    obtain ⟨_, h | ⟨h, _⟩ | ⟨h, _⟩⟩ := h <;> simp [h]
  | tempDirFailed s e h ht =>
    obtain ⟨_, h, _⟩ := h
    simp [h]
  | prepareExit s0 d o s h ht hp =>
    obtain ⟨_, h, _⟩ := h
    rcases hp with ⟨rfl, _⟩ | ⟨_, _, rfl, _⟩ | ⟨_, _, _, _, rfl, _⟩ <;>
      simp [NewTritonNode.afterListing, NewTritonNode.afterLoad, NewTritonNode.afterGet,
        NewTritonNode.entered, State.emit, h]
  | executed s0 d s o added h ht hp he =>
    obtain ⟨htr, hd, _⟩ := prepared_facts env s0 s d h hp
    cases he <;>
      simp_all [NewTritonNode.writeEvent, NewTritonNode.copyEvent, NewTritonNode.initEvent,
        NewTritonNode.applyEvent, NewTritonNode.putEvent, NewTritonNode.writeResult,
        NewTritonNode.copyResult, NewTritonNode.initResult, NewTritonNode.applyResult,
        NewTritonNode.putResult]

/-- C10: once the temporary directory exists, the last call of the function
removes it, and it is removed exactly once; and when the listing reports no
cluster manager the function returns nil without a directory or a `Put`. -/
theorem NewTritonNode_staging_removed (env : Env) :
    (∀ d, Event.tempDir d ∈ (NewTritonNode env).final.trace →
      (NewTritonNode env).final.trace.getLast? = some (.removeAll d) ∧
      (NewTritonNode env).final.trace.count (.removeAll d) = 1 ∧
      ∀ d', Event.removeAll d' ∈ (NewTritonNode env).final.trace → d' = d) ∧
    (∀ r, Event.list "/stor/triton-kubernetes" 100 ∈ (NewTritonNode env).final.trace →
      env.ListDirectory "/stor/triton-kubernetes" 100 = .ok r → r.ResultSetSize = 0 →
      (NewTritonNode env).outcome = .returned none ∧
      (∀ d, Event.tempDir d ∉ (NewTritonNode env).final.trace) ∧
      (∀ p c b, Event.put p c b ∉ (NewTritonNode env).final.trace)) := by
  have hshape := NewTritonNode_shape env
  generalize NewTritonNode env = r at hshape
  cases hshape with
  | collectExit o s h =>
    obtain ⟨_, h | ⟨h, hz⟩ | ⟨h, ho, _⟩⟩ := h
    · simp [h]
    · simp only [h]
      refine ⟨by simp, ?_⟩
      intro r _ hr hzero
      exact absurd hzero (hz r hr)
    · simp [h, ho]
  | tempDirFailed s e h ht =>
    obtain ⟨_, h, hl, hn⟩ := h
    simp only [h]
    refine ⟨by simp, ?_⟩
    intro r _ hr hzero
    rw [hl] at hr
    cases hr
    exact absurd hzero hn
  | prepareExit s0 d o s h ht hp =>
    obtain ⟨_, h, hl, hn⟩ := h
    have htr : (s.emit (.removeAll d)).trace =
        [.list "/stor/triton-kubernetes" 100, .tempDir d,
          .get (NewTritonNode.mantaPath s0.clusterManager), .removeAll d] := by
      rcases hp with ⟨rfl, _⟩ | ⟨_, _, rfl, _⟩ | ⟨_, _, _, _, rfl, _⟩ <;>
        simp [NewTritonNode.afterListing, NewTritonNode.afterLoad, NewTritonNode.afterGet,
          NewTritonNode.entered, State.emit, h]
    simp only [htr]
    refine ⟨by simp [List.count_cons], ?_⟩
    intro r _ hr hzero
    rw [hl] at hr
    cases hr
    exact absurd hzero hn
  | executed s0 d s o added h ht hp he =>
    obtain ⟨htr, hd, _⟩ := prepared_facts env s0 s d h hp
    obtain ⟨_, _, hl, hn⟩ := h
    refine ⟨?_, ?_⟩
    · cases he <;>
        simp [htr, List.count_cons, NewTritonNode.writeEvent, NewTritonNode.copyEvent,
          NewTritonNode.initEvent, NewTritonNode.applyEvent, NewTritonNode.putEvent]
    · intro r _ hr hzero
      rw [hl] at hr
      cases hr
      exact absurd hzero hn

theorem mantaPath_eq (clusterManager : String) :
    NewTritonNode.mantaPath clusterManager =
      "/stor/triton-kubernetes/" ++ clusterManager ++ "/main.tf.json" := by
  unfold NewTritonNode.mantaPath
  apply String.ext
  simp [String.data_append]

theorem nodePath_eq (hostname : String) :
    "module." ++ ("node_" ++ hostname) = "module.node_" ++ hostname := by
  apply String.ext
  simp [String.data_append]

theorem stagedPath_eq (d : String) : d ++ "/" ++ "main.tf.json" = d ++ "/main.tf.json" := by
  apply String.ext
  simp [String.data_append]

/-- On every run in which init and apply both succeed, `Put` is invoked exactly
once, at the path the document was loaded from, with the bytes that were
written to `main.tf.json`: the serialization of the document in memory after
the `SetP` call of line 331. -/
theorem NewTritonNode_put_after_apply (env : Env) (d : String)
    (hinit : Event.runShellCommand (some d) "terraform" ["init", "-force-copy"] ∈
      (NewTritonNode env).final.trace)
    (hinitOk : env.RunShellCommand (some d) "terraform" ["init", "-force-copy"] = none)
    (happly : Event.runShellCommand (some d) "terraform" ["apply", "-auto-approve"] ∈
      (NewTritonNode env).final.trace)
    (happlyOk : env.RunShellCommand (some d) "terraform" ["apply", "-auto-approve"] = none) :
    ∃ bytes parsed body,
      (NewTritonNode env).final.trace.filter Event.isPut =
        [.put ("/stor/triton-kubernetes/" ++ (NewTritonNode env).final.clusterManager ++
          "/main.tf.json") "application/json" body] ∧
      Event.get ("/stor/triton-kubernetes/" ++ (NewTritonNode env).final.clusterManager ++
        "/main.tf.json") ∈ (NewTritonNode env).final.trace ∧
      env.Get ("/stor/triton-kubernetes/" ++ (NewTritonNode env).final.clusterManager ++
        "/main.tf.json") = .ok (.ok bytes) ∧
      env.ParseJSON bytes = .ok parsed ∧
      (NewTritonNode env).final.parsedConfig =
        some (Container.SetP parsed (NewTritonNode env).final.cfg.toJson
          ("module.node_" ++ (NewTritonNode env).final.cfg.Hostname)).1 ∧
      body = Container.StringIndent env.MarshalIndent
        (Container.SetP parsed (NewTritonNode env).final.cfg.toJson
          ("module.node_" ++ (NewTritonNode env).final.cfg.Hostname)).1 "" "\t" ∧
      Event.writeFile (d ++ "/main.tf.json") body 0o644 ∈ (NewTritonNode env).final.trace := by
  have hshape := NewTritonNode_shape env
  generalize NewTritonNode env = r at hshape hinit happly
  cases hshape with
  | collectExit o s h =>
    obtain ⟨_, h | ⟨h, _⟩ | ⟨h, _⟩⟩ := h <;> simp [h] at hinit
  | tempDirFailed s e h ht =>
    obtain ⟨_, h, _⟩ := h
    simp [h] at hinit
  | prepareExit s0 d' o s h ht hp =>
    obtain ⟨_, h, _⟩ := h
    rcases hp with ⟨rfl, _⟩ | ⟨_, _, rfl, _⟩ | ⟨_, _, _, _, rfl, _⟩ <;>
      simp [NewTritonNode.afterListing, NewTritonNode.afterLoad, NewTritonNode.afterGet,
        NewTritonNode.entered, State.emit, h] at hinit
  | executed s0 d' s o added h ht hp he =>
    obtain ⟨htr, hd, hpath, _, _, _, _, _, parsed, opts, ⟨bytes, hget, hparse⟩, _, _, _, hdoc,
      hbytes⟩ := prepared_facts env s0 s d' h hp
    rw [nodePath_eq] at hdoc hbytes
    rw [mantaPath_eq] at hget hpath htr
    have hdd : d = d' := by
      cases he <;>
        simp_all [NewTritonNode.writeEvent, NewTritonNode.copyEvent, NewTritonNode.initEvent,
          NewTritonNode.applyEvent, NewTritonNode.putEvent]
    subst hdd
    refine ⟨bytes, parsed, _, ?_, ?_, hget, hparse, hdoc, rfl, ?_⟩
    · cases he <;>
        simp_all [NewTritonNode.writeEvent, NewTritonNode.copyEvent, NewTritonNode.initEvent,
          NewTritonNode.applyEvent, NewTritonNode.putEvent, NewTritonNode.initResult,
          NewTritonNode.applyResult, List.filter_cons, Event.isPut]
    · simp [htr]
    · cases he <;>
        simp_all [NewTritonNode.writeEvent, NewTritonNode.copyEvent, NewTritonNode.initEvent,
          NewTritonNode.applyEvent, NewTritonNode.putEvent, stagedPath_eq]

/-- For a hostname without a dot, when init and apply both succeed: the loaded
document has a `module` mapping, the document in memory is the loaded one with
the node configuration assigned at `node_<hostname>` in that mapping, and the
one `Put` carries what `json.MarshalIndent` returns for that document (the
empty object's text if it fails). -/
theorem NewTritonNode_put_body_plain_hostname (env : Env) (d : String)
    (hinit : Event.runShellCommand (some d) "terraform" ["init", "-force-copy"] ∈
      (NewTritonNode env).final.trace)
    (hinitOk : env.RunShellCommand (some d) "terraform" ["init", "-force-copy"] = none)
    (happly : Event.runShellCommand (some d) "terraform" ["apply", "-auto-approve"] ∈
      (NewTritonNode env).final.trace)
    (happlyOk : env.RunShellCommand (some d) "terraform" ["apply", "-auto-approve"] = none)
    (hdot : '.' ∉ (NewTritonNode env).final.cfg.Hostname.data) :
    ∃ bytes top m,
      env.Get ("/stor/triton-kubernetes/" ++ (NewTritonNode env).final.clusterManager ++
        "/main.tf.json") = .ok (.ok bytes) ∧
      env.ParseJSON bytes = .ok (.object top) ∧
      mapGet top "module" = some (.object m) ∧
      (NewTritonNode env).final.parsedConfig =
        some (.object (mapSet top "module" (.object
          (mapSet m ("node_" ++ (NewTritonNode env).final.cfg.Hostname)
            (.object (NewTritonNode env).final.cfg.fields))))) ∧
      ∃ body,
        (NewTritonNode env).final.trace.filter Event.isPut =
          [.put ("/stor/triton-kubernetes/" ++ (NewTritonNode env).final.clusterManager ++
            "/main.tf.json") "application/json" body] ∧
        (∀ text, env.MarshalIndent (.object (mapSet top "module" (.object
            (mapSet m ("node_" ++ (NewTritonNode env).final.cfg.Hostname)
              (.object (NewTritonNode env).final.cfg.fields))))) "" "\t" = .ok text →
          body = text) ∧
        (∀ e, env.MarshalIndent (.object (mapSet top "module" (.object
            (mapSet m ("node_" ++ (NewTritonNode env).final.cfg.Hostname)
              (.object (NewTritonNode env).final.cfg.fields))))) "" "\t" = .error e →
          body = "\x7b\x7d") := by
  have hshape := NewTritonNode_shape env
  generalize NewTritonNode env = r at hshape hinit happly hdot
  cases hshape with
  | collectExit o s h =>
    obtain ⟨_, h | ⟨h, _⟩ | ⟨h, _⟩⟩ := h <;> simp [h] at hinit
  | tempDirFailed s e h ht =>
    obtain ⟨_, h, _⟩ := h
    simp [h] at hinit
  | prepareExit s0 d' o s h ht hp =>
    obtain ⟨_, h, _⟩ := h
    rcases hp with ⟨rfl, _⟩ | ⟨_, _, rfl, _⟩ | ⟨_, _, _, _, rfl, _⟩ <;>
      simp [NewTritonNode.afterListing, NewTritonNode.afterLoad, NewTritonNode.afterGet,
        NewTritonNode.entered, State.emit, h] at hinit
  | executed s0 d' s o added h ht hp he =>
    obtain ⟨htr, hd, hpath, _, _, _, _, _, parsed, opts, ⟨bytes, hget, hparse⟩, ho, _, _, hdoc,
      hbytes⟩ := prepared_facts env s0 s d' h hp
    obtain ⟨top, m, rfl, hmod, _, _⟩ := getClusterOptions_ok env.order parsed opts ho
    have hset : (Container.SetP (.object top) s.cfg.toJson
        ("module." ++ ("node_" ++ s.cfg.Hostname))).1 =
        .object (mapSet top "module" (.object
          (mapSet m ("node_" ++ s.cfg.Hostname) (.object s.cfg.fields)))) := by
      simp only [Container.SetP, stringsSplit_module_path _ hdot, Container.Set, setLoop, hmod,
        tritonNodeTerraformConfig.toJson]
    rw [hset] at hdoc hbytes
    simp only [Container.StringIndent] at hbytes
    rw [mantaPath_eq] at hget hpath htr
    have hdd : d = d' := by
      cases he <;>
        simp_all [NewTritonNode.writeEvent, NewTritonNode.copyEvent, NewTritonNode.initEvent,
          NewTritonNode.applyEvent, NewTritonNode.putEvent]
    subst hdd
    refine ⟨bytes, top, m, hget, hparse, hmod, hdoc, s.jsonBytes.getD "", ?_, ?_, ?_⟩
    · cases he <;>
        simp_all [NewTritonNode.writeEvent, NewTritonNode.copyEvent, NewTritonNode.initEvent,
          NewTritonNode.applyEvent, NewTritonNode.putEvent, NewTritonNode.initResult,
          NewTritonNode.applyResult, List.filter_cons, Event.isPut]
    · intro text htext
      simp [hbytes, htext]
    · intro e herr
      simp [hbytes, herr]

/-- C7: with the cluster name pre-supplied and the clusters listed, the call
fails at the resolution with "Invalid Cluster Name" exactly when no listed
option has that name; then the document is still the one loaded and nothing is
written, run or put. Otherwise the selected key is the non-empty key of a
listed option with that name. -/
theorem NewTritonNode_cluster_resolution (env : Env) (name : String)
    (opts : List clusterOption) (hname : env.viper "cluster_name" = some name)
    (hopts : (NewTritonNode env).final.clusterOptions = some opts) :
    (∃ bytes parsed,
      env.Get (NewTritonNode.mantaPath (NewTritonNode env).final.clusterManager) =
        .ok (.ok bytes) ∧
      env.ParseJSON bytes = .ok parsed ∧
      getClusterOptions env.order (some parsed) = .ok opts ∧
      ((∀ o ∈ opts, o.ClusterName ≠ name) →
        (NewTritonNode env).final.parsedConfig = some parsed)) ∧
    (((NewTritonNode env).outcome = .returned (some (errorsNew "Invalid Cluster Name")) ∧
        (NewTritonNode env).final.jsonBytes = none) ↔
      ∀ o ∈ opts, o.ClusterName ≠ name) ∧
    ((∀ o ∈ opts, o.ClusterName ≠ name) →
      (NewTritonNode env).final.clusterKey = "" ∧
      (∀ f b p, Event.writeFile f b p ∉ (NewTritonNode env).final.trace) ∧
      (∀ w c a, Event.runShellCommand w c a ∉ (NewTritonNode env).final.trace) ∧
      (∀ p c b, Event.put p c b ∉ (NewTritonNode env).final.trace)) ∧
    ((∃ o ∈ opts, o.ClusterName = name) →
      (NewTritonNode env).final.clusterKey ≠ "" ∧
      ∃ o ∈ opts, o.ClusterName = name ∧
        o.ClusterKey = (NewTritonNode env).final.clusterKey) := by
  have hshape := NewTritonNode_shape env
  generalize NewTritonNode env = r at hshape hopts
  cases hshape with
  | collectExit o s h =>
    have : s.clusterOptions = none := h.1.2.2.2.2.1
    simp [this] at hopts
  | tempDirFailed s e h ht =>
    have : s.clusterOptions = none := h.1.1.2.2.2.2.1
    simp [this] at hopts
  | prepareExit s0 d o s h ht hp =>
    obtain ⟨⟨hu, _⟩, h, _⟩ := h
    have hnone : s0.clusterOptions = none := hu.2.2.2.2.1
    have hjb : s0.jsonBytes = none := hu.2.2.2.2.2.1
    have hck : s0.clusterKey = "" := hu.1
    rcases hp with ⟨rfl, _⟩ | ⟨_, _, rfl, _⟩ | ⟨parsed, opts', ⟨bytes, hget, hparse⟩, ho, rfl, hfail⟩
    · simp [NewTritonNode.afterGet, NewTritonNode.entered, State.emit, hnone] at hopts
    · simp [NewTritonNode.afterLoad, NewTritonNode.afterGet, NewTritonNode.entered, State.emit,
        hnone] at hopts
    · have : opts' = opts := by
        simpa [NewTritonNode.afterListing, State.emit] using hopts
      subst this
      rcases hfail with ⟨n, hn, hno, rfl⟩ | ⟨hn, _⟩
      · rw [hname] at hn
        cases hn
        refine ⟨⟨bytes, parsed, hget, hparse, ho, fun _ => rfl⟩, ?_, ?_, ?_⟩
        · exact ⟨fun _ => hno, fun _ => ⟨rfl, hjb⟩⟩
        · intro _
          refine ⟨hck, ?_⟩
          simp [NewTritonNode.afterListing, NewTritonNode.afterLoad, NewTritonNode.afterGet,
            NewTritonNode.entered, State.emit, h]
        · rintro ⟨x, hx, hxn⟩
          exact absurd hxn (hno x hx)
      · rw [hname] at hn
        cases hn
  | executed s0 d s o added h ht hp he =>
    obtain ⟨_, _, _, hkey, _, _, _, _, parsed, opts', ⟨bytes, hget, hparse⟩, ho, hso, hsel, _,
      hjb⟩ := prepared_facts env s0 s d h hp
    have : opts' = opts := by simpa [hso] using hopts
    subst this
    obtain ⟨x, hx, hxk, hxn⟩ := hsel
    have hxname := hxn name hname
    have hmatch : ¬ ∀ o ∈ opts', o.ClusterName ≠ name := fun hno => hno x hx hxname
    refine ⟨⟨bytes, parsed, hget, hparse, ho, fun hno => absurd hno hmatch⟩, ?_, ?_, ?_⟩
    · constructor
      · rintro ⟨_, hnone⟩
        simp [hjb] at hnone
      · intro hno
        exact absurd hno hmatch
    · intro hno
      exact absurd hno hmatch
    · intro _
      exact ⟨hkey, x, hx, hxname, hxk⟩

/-- C9: once a cluster key is selected, the node configuration refers to that
cluster's `environment_id` output by an unresolved reference, and the key is
the key of a listed option: a key of the loaded document's `module` mapping
that starts with `cluster_`. -/
theorem NewTritonNode_environment_reference (env : Env)
    (hsel : (NewTritonNode env).final.clusterKey ≠ "") :
    (NewTritonNode env).final.cfg.RancherEnvironmentID =
      "$\x7bmodule." ++ (NewTritonNode env).final.clusterKey ++ ".environment_id\x7d" ∧
    ∃ bytes parsed opts top m,
      env.Get (NewTritonNode.mantaPath (NewTritonNode env).final.clusterManager) =
        .ok (.ok bytes) ∧
      env.ParseJSON bytes = .ok parsed ∧
      getClusterOptions env.order (some parsed) = .ok opts ∧
      (∃ o ∈ opts, o.ClusterKey = (NewTritonNode env).final.clusterKey) ∧
      parsed = .object top ∧ mapGet top "module" = some (.object m) ∧
      (NewTritonNode env).final.clusterKey ∈ m.map Prod.fst ∧
      HasPrefix (NewTritonNode env).final.clusterKey "cluster_" := by
  have hshape := NewTritonNode_shape env
  generalize NewTritonNode env = r at hshape hsel
  cases hshape with
  | collectExit o s h => exact absurd h.1.1 hsel
  | tempDirFailed s e h ht => exact absurd h.1.1.1 hsel
  | prepareExit s0 d o s h ht hp =>
    have hck : s0.clusterKey = "" := h.1.1.1
    rcases hp with ⟨rfl, _⟩ | ⟨_, _, rfl, _⟩ | ⟨_, _, _, _, rfl, _⟩ <;>
      exact absurd hck hsel
  | executed s0 d s o added h ht hp he =>
    obtain ⟨_, _, _, _, henv, _, _, _, parsed, opts, ⟨bytes, hget, hparse⟩, ho, _, hselected, _,
      _⟩ := prepared_facts env s0 s d h hp
    obtain ⟨top, m, hdoc, hmod, hmem, _⟩ := getClusterOptions_ok env.order parsed opts ho
    obtain ⟨x, hx, hxk, _⟩ := hselected
    obtain ⟨v, hv, hpre, _⟩ := (hmem x).1 hx
    rw [hxk] at hv hpre
    exact ⟨henv, bytes, parsed, opts, top, m, hget, hparse, ho, ⟨x, hx, hxk⟩, hdoc, hmod,
      List.mem_map.2 ⟨_, hv, rfl⟩, hpre⟩

/-- C5: for the selector with which the role step is reached, the step succeeds
exactly for "compute", "etcd" and "orchestration", setting the flag named and
leaving the other two false; for any other selector it fails with "Invalid
rancher host label", and so does the call. No configuration that is composed
has zero or several roles. -/
theorem NewTritonNode_role_step (env : Env) (s : State)
    (hreach : (hostname env start).andThen (selectHostLabel env) = .next s) :
    (s.hostLabel = "compute" → setHostLabel s = .next { s with cfg := { s.cfg with
      RancherHostLabels := { Orchestration := false, Etcd := false, Compute := true } } }) ∧
    (s.hostLabel = "etcd" → setHostLabel s = .next { s with cfg := { s.cfg with
      RancherHostLabels := { Orchestration := false, Etcd := true, Compute := false } } }) ∧
    (s.hostLabel = "orchestration" → setHostLabel s = .next { s with cfg := { s.cfg with
      RancherHostLabels := { Orchestration := true, Etcd := false, Compute := false } } }) ∧
    (s.hostLabel ∉ hostLabelOptions →
      setHostLabel s = s.fail (errorsNew "Invalid rancher host label") ∧
      (NewTritonNode env).outcome = .returned (some (errorsNew "Invalid rancher host label"))) ∧
    ((∃ s', setHostLabel s = .next s') ↔ s.hostLabel ∈ hostLabelOptions) ∧
    ((NewTritonNode env).final.jsonBytes ≠ none →
      OneRole (NewTritonNode env).final.cfg.RancherHostLabels) := by
  have hsat := (hostname_sat env).andThen (selectHostLabel_sat env)
  rw [hreach] at hsat
  have hlabels : s.cfg.RancherHostLabels = {} := hsat.2.2.1
  have hfail : s.hostLabel ∉ hostLabelOptions →
      setHostLabel s = s.fail (errorsNew "Invalid rancher host label") := by
    intro h
    simp only [hostLabelOptions, List.mem_cons, List.mem_singleton, not_or, List.mem_nil_iff,
      or_false] at h
    simp [setHostLabel, h.1, h.2.1, h.2.2]
  refine ⟨?_, ?_, ?_, ?_, ?_, ?_⟩
  · intro h
    simp [setHostLabel, h, hlabels]
  · intro h
    simp [setHostLabel, h, hlabels]
  · intro h
    simp [setHostLabel, h, hlabels]
  · intro h
    refine ⟨hfail h, ?_⟩
    simp only [NewTritonNode, collect, hreach, Flow.andThen_next, hfail h, State.fail,
      Flow.andThen_exit, Flow.finish]
  · constructor
    · rintro ⟨s', hs'⟩
      by_contra hno
      rw [hfail hno] at hs'
      cases hs'
    · intro h
      simp only [hostLabelOptions, List.mem_cons, List.mem_singleton, List.mem_nil_iff,
        or_false] at h
      rcases h with h | h | h <;> simp [setHostLabel, h]
  · intro hjb
    have hshape := NewTritonNode_shape env
    generalize NewTritonNode env = r at hshape hjb
    cases hshape with
    | collectExit o s h => exact absurd h.1.2.2.2.2.2.1 hjb
    | tempDirFailed s e h ht => exact absurd h.1.1.2.2.2.2.2.1 hjb
    | prepareExit s0 d o s h ht hp =>
      have hnone : s0.jsonBytes = none := h.1.1.2.2.2.2.2.1
      rcases hp with ⟨rfl, _⟩ | ⟨_, _, rfl, _⟩ | ⟨_, _, _, _, rfl, _⟩ <;>
        exact absurd hnone hjb
    | executed s0 d s o added h ht hp he =>
      exact (prepared_facts env s0 s d h hp).2.2.2.2.2.2.2.1

theorem prepared_apiURL (env : Env) (s0 s : State) (d : String) (h : Collected env s0)
    (hp : Prepared env (entered s0 d) s) :
    s.cfg.RancherAPIURL = "http://$\x7belement(module.cluster-manager.masters, 0)\x7d:8080" := by
  obtain ⟨parsed, opts, key, hf, ho, hk, hsel, rfl⟩ := hp
  exact h.1.2.2.2

theorem environmentID_ne_empty (key : String) :
    "$\x7bmodule." ++ key ++ ".environment_id\x7d" ≠ "" := by
  intro h
  have := congrArg String.data h
  simp [String.data_append] at this

/-- C6, as amended: in the node module that is serialized, the fields tagged
`omitempty` are left out when blank, while `rancher_access_key` and
`rancher_secret_key`, which `NewTritonNode` never sets, are always written as
empty strings; no field other than these two and `triton_account`,
`triton_key_path`, `triton_key_id` can carry an empty string. -/
theorem NewTritonNode_serialized_fields (env : Env)
    (hbuilt : (NewTritonNode env).final.jsonBytes ≠ none) :
    ("rancher_access_key", Json.string "") ∈ (NewTritonNode env).final.cfg.fields ∧
    ("rancher_secret_key", Json.string "") ∈ (NewTritonNode env).final.cfg.fields ∧
    (∀ name, (name, Json.string "") ∈ (NewTritonNode env).final.cfg.fields →
      name ∈ ["rancher_access_key", "rancher_secret_key", "triton_account",
        "triton_key_path", "triton_key_id"]) ∧
    (∀ name v, (name, v) ∈ (NewTritonNode env).final.cfg.fields →
      name ∈ ["triton_url", "rancher_registry", "rancher_registry_username",
        "rancher_registry_password", "k8s_registry", "k8s_registry_username",
        "k8s_registry_password"] →
      name = "triton_url" ∧ v = .string (NewTritonNode env).final.cfg.TritonURL ∧
        (NewTritonNode env).final.cfg.TritonURL ≠ "") := by
  have hshape := NewTritonNode_shape env
  generalize NewTritonNode env = r at hshape hbuilt
  cases hshape with
  | collectExit o s h => exact absurd h.1.2.2.2.2.2.1 hbuilt
  | tempDirFailed s e h ht => exact absurd h.1.1.2.2.2.2.2.1 hbuilt
  | prepareExit s0 d o s h ht hp =>
    have hnone : s0.jsonBytes = none := h.1.1.2.2.2.2.2.1
    rcases hp with ⟨rfl, _⟩ | ⟨_, _, rfl, _⟩ | ⟨_, _, _, _, rfl, _⟩ <;>
      exact absurd hnone hbuilt
  | executed s0 d s o added h ht hp he =>
    have hurl := prepared_apiURL env s0 s d h hp
    obtain ⟨_, _, _, _, henv, hu, hh, _⟩ := prepared_facts env s0 s d h hp
    obtain ⟨_, _, _, _, _, _, hsrc, hak, hsk, hr1, hr2, hr3, hk1, hk2, hk3⟩ := hu
    simp only at hsrc hak hsk hr1 hr2 hr3 hk1 hk2 hk3
    have hid := environmentID_ne_empty s.clusterKey
    rw [← henv] at hid
    have hne : s.cfg.RancherAPIURL ≠ "" := by rw [hurl]; decide
    have hsne : s.cfg.Source ≠ "" := by rw [hsrc]; decide
    have hfields : s.cfg.fields =
        [("source", .string s.cfg.Source), ("hostname", .string s.cfg.Hostname),
          ("rancher_api_url", .string s.cfg.RancherAPIURL),
          ("rancher_access_key", .string ""), ("rancher_secret_key", .string ""),
          ("rancher_environment_id", .string s.cfg.RancherEnvironmentID),
          ("rancher_host_labels", s.cfg.RancherHostLabels.toJson),
          ("triton_account", .string s.cfg.TritonAccount),
          ("triton_key_path", .string s.cfg.TritonKeyPath),
          ("triton_key_id", .string s.cfg.TritonKeyID)] ++
        jsonFieldOmitEmpty "triton_url" s.cfg.TritonURL := by
      simp [tritonNodeTerraformConfig.fields, jsonField, jsonFieldOmitEmpty, hak, hsk, hr1,
        hr2, hr3, hk1, hk2, hk3]
    simp only [hfields]
    refine ⟨by simp, by simp, ?_, ?_⟩
    · intro name hmem
      simp only [List.mem_append, List.mem_cons, Prod.mk.injEq, List.mem_nil_iff, or_false,
        jsonFieldOmitEmpty] at hmem
      rcases hmem with (⟨rfl, hv⟩ | ⟨rfl, hv⟩ | ⟨rfl, hv⟩ | ⟨rfl, hv⟩ | ⟨rfl, hv⟩ | ⟨rfl, hv⟩ |
        ⟨rfl, hv⟩ | ⟨rfl, hv⟩ | ⟨rfl, hv⟩ | ⟨rfl, hv⟩) | hmem
      · exact absurd (Json.string.inj hv).symm hsne
      · exact absurd (Json.string.inj hv).symm hh
      · exact absurd (Json.string.inj hv).symm hne
      · simp
      · simp
      · exact absurd (Json.string.inj hv).symm hid
      · simp [rancherHostLabelsConfig.toJson] at hv
      · simp
      · simp
      · simp
      · by_cases hurl0 : s.cfg.TritonURL = ""
        · simp [hurl0] at hmem
        · simp only [hurl0, if_false, List.mem_singleton, Prod.mk.injEq] at hmem
          exact absurd (Json.string.inj hmem.2).symm hurl0
    · intro name v hmem hname
      simp only [List.mem_append, List.mem_cons, Prod.mk.injEq, List.mem_nil_iff, or_false,
        jsonFieldOmitEmpty] at hmem
      rcases hmem with (⟨rfl, hv⟩ | ⟨rfl, hv⟩ | ⟨rfl, hv⟩ | ⟨rfl, hv⟩ | ⟨rfl, hv⟩ | ⟨rfl, hv⟩ |
        ⟨rfl, hv⟩ | ⟨rfl, hv⟩ | ⟨rfl, hv⟩ | ⟨rfl, hv⟩) | hmem
      any_goals (simp at hname; done)
      by_cases hurl0 : s.cfg.TritonURL = ""
      · simp [hurl0] at hmem
      · simp only [hurl0, if_false, List.mem_singleton, Prod.mk.injEq] at hmem
        exact ⟨hmem.1, hmem.2, hurl0⟩

/-- C3: for a document whose `module` value is a mapping (with distinct keys),
`getClusterOptions` returns, without error, exactly one option for each entry
whose key starts with `cluster_` and whose `name` field is a string, and nothing
else, in whatever order the map is visited. -/
theorem getClusterOptions_lists_named_clusters (order : RangeOrder)
    (top m : List (String × Json)) (hmod : mapGet top "module" = some (.object m))
    (hkeys : (m.map Prod.fst).Nodup) :
    ∃ opts, getClusterOptions order (some (.object top)) = .ok opts ∧
      (∀ key fields name, (key, Json.object fields) ∈ m → HasPrefix key "cluster_" →
        mapGet fields "name" = some (.string name) →
        opts.count { ClusterKey := key, ClusterName := name } = 1) ∧
      (∀ o ∈ opts, HasPrefix o.ClusterKey "cluster_" ∧
        ∃ fields, (o.ClusterKey, Json.object fields) ∈ m ∧
          mapGet fields "name" = some (.string o.ClusterName)) ∧
      (opts.map (·.ClusterKey)).Nodup := by
  obtain ⟨opts, hok, hmem, hnd⟩ := getClusterOptions_of_module order top m hmod
  refine ⟨opts, hok, ?_, ?_, hnd hkeys⟩
  · intro key fields name hin hp hname
    have hmemo : ({ ClusterKey := key, ClusterName := name } : clusterOption) ∈ opts :=
      (hmem _).2 ⟨.object fields, hin, hp, fields, rfl, hname⟩
    exact List.count_eq_one_of_mem (List.Nodup.of_map _ (hnd hkeys)) hmemo
  · intro o ho
    obtain ⟨v, hv, hp, fields, rfl, hname⟩ := (hmem o).1 ho
    exact ⟨hp, fields, hv, hname⟩

/-- C4: `getClusterOptions` returns an error exactly when the document has no
`module` mapping; an empty mapping gives the empty list and no error, a missing
`module` key gives an error. -/
theorem getClusterOptions_error_iff (order : RangeOrder) (doc : Json) :
    ((∃ e, getClusterOptions order (some doc) = .error e) ↔
      ¬ ∃ top m, doc = .object top ∧ mapGet top "module" = some (.object m)) ∧
    (∀ top, doc = .object top → mapGet top "module" = some (.object []) →
      getClusterOptions order (some doc) = .ok []) ∧
    (∀ top, doc = .object top → mapGet top "module" = none →
      getClusterOptions order (some doc) = .error ErrNotObj) := by
  rcases childrenMap_module doc with ⟨top, m, he, hm, hc⟩ | ⟨hno, herr⟩
  · subst he
    refine ⟨?_, ?_, ?_⟩
    · constructor
      · rintro ⟨e, he⟩
        rw [getClusterOptions, hc] at he
        cases he
      · intro hno
        exact absurd ⟨top, m, rfl, hm⟩ hno
    · intro top' htop hempty
      cases htop
      rw [hm] at hempty
      cases hempty
      rw [getClusterOptions, hc]
      have := (order.perm ([] : List (String × Container))).eq_nil
      simp [this]
    · intro top' htop hnone
      cases htop
      rw [hm] at hnone
      cases hnone
  · refine ⟨?_, ?_, ?_⟩
    · constructor
      · intro _
        exact hno
      · intro _
        exact ⟨ErrNotObj, by rw [getClusterOptions, herr]⟩
    · intro top htop hempty
      exact absurd ⟨top, [], htop, hempty⟩ hno
    · intro top _ _
      rw [getClusterOptions, herr]

/-- For a hostname without a dot, the compose step leaves the `module` mapping
with exactly one entry at `node_<hostname>`, holding the node configuration,
and every entry at another key as it was. -/
theorem compose_module_entry (env : Env) (s : State) (top m : List (String × Json))
    (hdoc : s.parsedConfig = some (.object top))
    (hmod : mapGet top "module" = some (.object m))
    (hkeys : (m.map Prod.fst).Nodup) (hdot : '.' ∉ s.cfg.Hostname.data) :
    ∃ m', (compose env s).parsedConfig = some (.object (mapSet top "module" (.object m'))) ∧
      m'.filter (fun kv => kv.1 = "node_" ++ s.cfg.Hostname) =
        [("node_" ++ s.cfg.Hostname, (compose env s).cfg.toJson)] ∧
      ∀ k v, k ≠ "node_" ++ s.cfg.Hostname → ((k, v) ∈ m' ↔ (k, v) ∈ m) := by
  refine ⟨mapSet m ("node_" ++ s.cfg.Hostname) (compose env s).cfg.toJson, ?_,
    filter_mapSet_self _ _ _ hkeys, fun k v hk => mem_mapSet_of_ne _ _ _ _ _ hk⟩
  simp only [compose, hdoc, Container.Data, Container.SetP, stringsSplit_module_path _ hdot,
    Container.Set, setLoop, hmod]

/-- C1 at a hostname with a dot: for hostname `a.b` the compose step puts no
entry at key `node_a.b`; it creates `node_a` holding an object with field `b`. -/
theorem compose_dotted_hostname (env : Env) :
    ∃ m, (compose env dottedState).parsedConfig = some (.object [("module", .object m)]) ∧
      mapGet m "node_a.b" = none ∧
      mapGet m "node_a" = some (.object [("b", (compose env dottedState).cfg.toJson)]) :=
  ⟨_, rfl, rfl, rfl⟩

theorem collect_envE2E : NewTritonNode.collect envE2E = .next scenarioCollected := rfl

theorem run_envE2E :
    NewTritonNode envE2E = (NewTritonNode.staged envE2E scenarioCollected).finish := by
  rw [NewTritonNode, collect_envE2E]
  rfl

theorem collect_envInitFails : NewTritonNode.collect envInitFails = .next scenarioCollected := rfl

theorem run_envInitFails :
    NewTritonNode envInitFails =
      (NewTritonNode.staged envInitFails scenarioCollected).finish := by
  rw [NewTritonNode, collect_envInitFails]
  rfl

theorem collect_envUnknownCluster :
    NewTritonNode.collect envUnknownCluster = .next scenarioCollected := rfl

theorem run_envUnknownCluster :
    NewTritonNode envUnknownCluster =
      (NewTritonNode.staged envUnknownCluster scenarioCollected).finish := by
  rw [NewTritonNode, collect_envUnknownCluster]
  rfl

theorem run_envNoManagers :
    NewTritonNode envNoManagers =
      ⟨.returned none,
        { scenarioCollected with
          trace := [.list "/stor/triton-kubernetes" 100, .println "No cluster managers found."]
          clusterManager := ""
          result := {} }⟩ := by
  have h : NewTritonNode.collect envNoManagers =
      .exit (.returned none)
        { scenarioCollected with
          trace := [.list "/stor/triton-kubernetes" 100, .println "No cluster managers found."]
          clusterManager := ""
          result := {} } := rfl
  rw [NewTritonNode, h]
  rfl

/-- C2 in the scenario where `terraform init` fails: no `Put`, and the error is returned. -/
theorem NewTritonNode_no_put_unless_applied_witness :
    Event.runShellCommand (some "/tmp/triton-kubernetes-1") "terraform" ["init", "-force-copy"] ∈
      (NewTritonNode envInitFails).final.trace ∧
    envInitFails.RunShellCommand (some "/tmp/triton-kubernetes-1") "terraform"
      ["init", "-force-copy"] = some ⟨"exit status 1"⟩ ∧
    (∀ p c b, Event.put p c b ∉ (NewTritonNode envInitFails).final.trace) ∧
    (NewTritonNode envInitFails).outcome = .returned (some ⟨"exit status 1"⟩) :=
  have h : Event.runShellCommand (some "/tmp/triton-kubernetes-1") "terraform"
      ["init", "-force-copy"] ∈ (NewTritonNode envInitFails).final.trace := by
    rw [run_envInitFails]
    decide
  ⟨h, rfl, (NewTritonNode_no_put_unless_applied envInitFails).1 _ _ h rfl⟩

/-- C10 in the scenario where `terraform init` fails (the directory is removed last,
once) and in the scenario with an empty listing (nil, no directory, no `Put`). -/
theorem NewTritonNode_staging_removed_witness :
    (Event.tempDir "/tmp/triton-kubernetes-1" ∈ (NewTritonNode envInitFails).final.trace ∧
      (NewTritonNode envInitFails).final.trace.getLast? =
        some (.removeAll "/tmp/triton-kubernetes-1") ∧
      (NewTritonNode envInitFails).final.trace.count (.removeAll "/tmp/triton-kubernetes-1") = 1) ∧
    (Event.list "/stor/triton-kubernetes" 100 ∈ (NewTritonNode envNoManagers).final.trace ∧
      (NewTritonNode envNoManagers).outcome = .returned none ∧
      (∀ d, Event.tempDir d ∉ (NewTritonNode envNoManagers).final.trace) ∧
      (∀ p c b, Event.put p c b ∉ (NewTritonNode envNoManagers).final.trace)) :=
  have h1 : Event.tempDir "/tmp/triton-kubernetes-1" ∈
      (NewTritonNode envInitFails).final.trace := by
    rw [run_envInitFails]
    decide
  have h2 : Event.list "/stor/triton-kubernetes" 100 ∈
      (NewTritonNode envNoManagers).final.trace := by
    rw [run_envNoManagers]
    decide
  have t1 := (NewTritonNode_staging_removed envInitFails).1 _ h1
  ⟨⟨h1, t1.1, t1.2.1⟩, h2, (NewTritonNode_staging_removed envNoManagers).2 ⟨[], 0⟩ h2 rfl rfl⟩

/-- The end-to-end scenario has one `Put`, with the bytes written to `main.tf.json`. -/
theorem NewTritonNode_put_after_apply_witness :
    ∃ body,
      (NewTritonNode envE2E).final.trace.filter Event.isPut =
        [.put ("/stor/triton-kubernetes/" ++ (NewTritonNode envE2E).final.clusterManager ++
          "/main.tf.json") "application/json" body] ∧
      Event.writeFile ("/tmp/triton-kubernetes-1" ++ "/main.tf.json") body 0o644 ∈
        (NewTritonNode envE2E).final.trace :=
  have h1 : Event.runShellCommand (some "/tmp/triton-kubernetes-1") "terraform"
      ["init", "-force-copy"] ∈ (NewTritonNode envE2E).final.trace := by
    rw [run_envE2E]
    decide
  have h2 : Event.runShellCommand (some "/tmp/triton-kubernetes-1") "terraform"
      ["apply", "-auto-approve"] ∈ (NewTritonNode envE2E).final.trace := by
    rw [run_envE2E]
    decide
  match NewTritonNode_put_after_apply envE2E "/tmp/triton-kubernetes-1" h1 rfl h2 rfl with
  | ⟨_, _, body, hput, _, _, _, _, _, hwrite⟩ => ⟨body, hput, hwrite⟩

/-- C7 in the scenario with cluster name `staging`, which no cluster has. -/
theorem NewTritonNode_cluster_resolution_witness :
    envUnknownCluster.viper "cluster_name" = some "staging" ∧
    (NewTritonNode envUnknownCluster).final.clusterOptions =
      some [{ ClusterName := "prod", ClusterKey := "cluster_abc" }] ∧
    (NewTritonNode envUnknownCluster).outcome =
      .returned (some (errorsNew "Invalid Cluster Name")) ∧
    (∀ p c b, Event.put p c b ∉ (NewTritonNode envUnknownCluster).final.trace) :=
  have h : (NewTritonNode envUnknownCluster).final.clusterOptions =
      some [{ ClusterName := "prod", ClusterKey := "cluster_abc" }] := by
    rw [run_envUnknownCluster]
    rfl
  have hno : ∀ o ∈ [({ ClusterName := "prod", ClusterKey := "cluster_abc" } : clusterOption)],
      o.ClusterName ≠ "staging" := by decide
  have t := NewTritonNode_cluster_resolution envUnknownCluster "staging" _ rfl h
  ⟨rfl, h, (t.2.1.2 hno).1, (t.2.2.1 hno).2.2.2⟩

/-- C9 in the end-to-end scenario: the key selected is `cluster_abc`. -/
theorem NewTritonNode_environment_reference_witness :
    (NewTritonNode envE2E).final.clusterKey = "cluster_abc" ∧
    (NewTritonNode envE2E).final.cfg.RancherEnvironmentID =
      "$\x7bmodule." ++ (NewTritonNode envE2E).final.clusterKey ++ ".environment_id\x7d" ∧
    HasPrefix (NewTritonNode envE2E).final.clusterKey "cluster_" :=
  have h : (NewTritonNode envE2E).final.clusterKey = "cluster_abc" := by
    rw [run_envE2E]
    rfl
  have hne : (NewTritonNode envE2E).final.clusterKey ≠ "" := by
    rw [h]
    decide
  match NewTritonNode_environment_reference envE2E hne with
  | ⟨href, _, _, _, _, _, _, _, _, _, _, _, _, hpre⟩ => ⟨h, href, hpre⟩

/-- C5 in the scenario with the role selector `worker`. -/
theorem NewTritonNode_role_step_witness :
    NewTritonNode.setHostLabel
        { cfg := { Source := "./terraform/modules/triton-rancher-k8s-host", Hostname := "node1" }
          hostLabel := "worker" } =
      State.fail
        { cfg := { Source := "./terraform/modules/triton-rancher-k8s-host", Hostname := "node1" }
          hostLabel := "worker" }
        (errorsNew "Invalid rancher host label") ∧
    (NewTritonNode envBadLabel).outcome =
      .returned (some (errorsNew "Invalid rancher host label")) :=
  (NewTritonNode_role_step envBadLabel
    { cfg := { Source := "./terraform/modules/triton-rancher-k8s-host", Hostname := "node1" }
      hostLabel := "worker" } rfl).2.2.2.1 (by decide)

/-- C6, as amended, in the end-to-end scenario. -/
theorem NewTritonNode_serialized_fields_witness :
    (NewTritonNode envE2E).final.jsonBytes ≠ none ∧
    (∀ name, (name, Json.string "") ∈ (NewTritonNode envE2E).final.cfg.fields →
      name ∈ ["rancher_access_key", "rancher_secret_key", "triton_account",
        "triton_key_path", "triton_key_id"]) :=
  have h : (NewTritonNode envE2E).final.jsonBytes ≠ none := by
    rw [run_envE2E]
    decide
  ⟨h, (NewTritonNode_serialized_fields envE2E h).2.2.1⟩

/-- C6 as stated fails in the end-to-end scenario: with only hostname, role and
cluster supplied, a node module is composed, and it is not the case that none
of its fields has the empty string as value: `rancher_access_key` has. -/
theorem serialized_module_has_empty_fields :
    (NewTritonNode envE2E).final.jsonBytes ≠ none ∧
    ¬ (∀ name v, (name, v) ∈ (NewTritonNode envE2E).final.cfg.fields →
      v ≠ Json.string "") := by
  rw [run_envE2E]
  refine ⟨by decide, fun h => ?_⟩
  exact h "rancher_access_key" (.string "") (mem_of_mapGet_eq_some _ _ _ rfl) rfl

/-- C3 on a module map with a named cluster, two clusters without a string name and a
node, visited in reverse. -/
theorem getClusterOptions_lists_named_clusters_witness :
    ∃ opts,
      getClusterOptions reverseOrder
        (some (.object [("module", .object
          [("cluster_abc", .object [("name", .string "prod")]),
           ("cluster_legacy", .object []),
           ("cluster_odd", .object [("name", .number "7")]),
           ("node_node1", .object [("name", .string "node1")])])])) = .ok opts ∧
      opts.count { ClusterKey := "cluster_abc", ClusterName := "prod" } = 1 ∧
      (∀ o ∈ opts, HasPrefix o.ClusterKey "cluster_") :=
  match getClusterOptions_lists_named_clusters reverseOrder
    [("module", .object
      [("cluster_abc", .object [("name", .string "prod")]),
       ("cluster_legacy", .object []),
       ("cluster_odd", .object [("name", .number "7")]),
       ("node_node1", .object [("name", .string "node1")])])]
    [("cluster_abc", .object [("name", .string "prod")]),
     ("cluster_legacy", .object []),
     ("cluster_odd", .object [("name", .number "7")]),
     ("node_node1", .object [("name", .string "node1")])] rfl (by decide) with
  | ⟨opts, hok, hcount, hmem, _⟩ =>
    ⟨opts, hok, hcount "cluster_abc" [("name", .string "prod")] "prod" (by simp) (by decide) rfl,
      fun o ho => (hmem o ho).1⟩

theorem collect_envDottedHostname :
    NewTritonNode.collect envDottedHostname = .next dottedCollected := rfl

theorem run_envDottedHostname :
    NewTritonNode envDottedHostname =
      (NewTritonNode.staged envDottedHostname dottedCollected).finish := by
  rw [NewTritonNode, collect_envDottedHostname]
  rfl

/-- C8 at a hostname with a dot: with hostname `a.b` and `module.node_a` taken
by a string, init and apply succeed and the call returns nil, but the document
in memory is still the loaded one, and that is what the one `Put` carries: its
body is the serialization of the unmodified document, without the node. -/
theorem put_body_dotted_hostname :
    (NewTritonNode envDottedHostname).outcome = .returned none ∧
    (NewTritonNode envDottedHostname).final.cfg.Hostname = "a.b" ∧
    Event.runShellCommand (some "/tmp/triton-kubernetes-1") "terraform"
      ["apply", "-auto-approve"] ∈ (NewTritonNode envDottedHostname).final.trace ∧
    envDottedHostname.ParseJSON "main.tf.json" = .ok collisionDocument ∧
    (NewTritonNode envDottedHostname).final.parsedConfig = some collisionDocument ∧
    (NewTritonNode envDottedHostname).final.trace.filter Event.isPut =
      [.put "/stor/triton-kubernetes/dev/main.tf.json" "application/json"
        (render collisionDocument)] := by
  rw [run_envDottedHostname]
  exact ⟨rfl, rfl, by decide, rfl, rfl, rfl⟩

/-- The end-to-end scenario, whose hostname `node1` has no dot: the one `Put`
carries the rendering of the loaded document with the node module assigned at
`node_node1`. -/
theorem NewTritonNode_put_body_envE2E :
    ∃ body,
      (NewTritonNode envE2E).final.trace.filter Event.isPut =
        [.put ("/stor/triton-kubernetes/" ++ (NewTritonNode envE2E).final.clusterManager ++
          "/main.tf.json") "application/json" body] ∧
      body = render (.object [("module", .object
        [("cluster_abc", .object [("name", .string "prod")]),
         ("node_node1", .object (NewTritonNode envE2E).final.cfg.fields)])]) := by
  have h1 : Event.runShellCommand (some "/tmp/triton-kubernetes-1") "terraform"
      ["init", "-force-copy"] ∈ (NewTritonNode envE2E).final.trace := by
    rw [run_envE2E]
    decide
  have h2 : Event.runShellCommand (some "/tmp/triton-kubernetes-1") "terraform"
      ["apply", "-auto-approve"] ∈ (NewTritonNode envE2E).final.trace := by
    rw [run_envE2E]
    decide
  have hH : (NewTritonNode envE2E).final.cfg.Hostname = "node1" := by
    rw [run_envE2E]
    rfl
  have h3 : '.' ∉ (NewTritonNode envE2E).final.cfg.Hostname.data := by
    rw [hH]
    decide
  obtain ⟨_, top, m, _, hparse, hmod, _, body, hput, hok, _⟩ :=
    NewTritonNode_put_body_plain_hostname envE2E "/tmp/triton-kubernetes-1" h1 rfl h2 rfl h3
  have htop : top = [("module", .object
      [("cluster_abc", .object [("name", .string "prod")])])] := by
    have : (Except.ok scenarioDocument : Except GoError Json) = .ok (.object top) := hparse
    simp only [scenarioDocument, Except.ok.injEq, Json.object.injEq] at this
    exact this.symm
  subst htop
  have hm : m = [("cluster_abc", .object [("name", .string "prod")])] := by
    have : some (Json.object [("cluster_abc", .object [("name", .string "prod")])]) =
        some (.object m) := hmod
    simp only [Option.some.injEq, Json.object.injEq] at this
    exact this.symm
  subst hm
  rw [hH] at hok
  generalize (NewTritonNode envE2E).final.cfg.fields = fields at hok ⊢
  exact ⟨body, hput, hok _ rfl⟩

end TritonKubernetes
